import Mathlib

/-!
Verification development for the Yandex Terraform provider sources:
the compute instance resource (create / update flow, its stop / update /
start choreography, field-mask construction) and the SmartWebSecurity
Advanced Rate Limiter (ARL) profile resource.

Remote calls are modelled as events in a trace; the SDK operation
outcome (WrapOperation + op.Wait) of each call is an oracle indexed by
the position of the call in the run.  Leaf expander helpers that live in
other files of the repository (expandLabels, expandInstanceResourcesSpec,
expandPrimaryV4AddressSpec, ...) are abstracted as already-expanded
values carried by the resource-data model; the control flow, the guard
conditions and the request construction are translated from the source.
-/

/-- Status of a compute instance, as in the compute API enum. -/
inductive InstanceStatus where
  | statusUnspecified
  | provisioning
  | running
  | stopping
  | stopped
  | starting
  | restarting
  | updating
  | error_
  | crashed
  | deleting
  deriving DecidableEq, Repr

/-- compute.PlacementPolicy as populated by
`preparePlacementPolicyForUpdateRequest`; host affinity rules are kept
abstract (the expander lives outside these files), `0` is the zero value. -/
structure PlacementPolicy where
  placementGroupId : String := ""
  hostAffinityRules : Nat := 0
  placementGroupPartition : Int := 0
  deriving DecidableEq, Repr

/-- compute.MaintenancePolicy enum. -/
inductive MaintenancePolicy where
  | unspecified
  | restart
  | migrate
  deriving DecidableEq, Repr

/-- compute.UpdateInstanceRequest.  Message fields assigned by the update
code are `Option`-valued: `none` is the proto zero value (field left
unpopulated by the provider code). -/
structure UpdateInstanceRequest where
  instanceId : String
  labels : Option (List (String × String)) := none
  metadata : Option (List (String × String)) := none
  metadataOptions : Option Nat := none
  name : Option String := none
  description : Option String := none
  serviceAccountId : Option String := none
  maintenancePolicy : Option MaintenancePolicy := none
  maintenanceGracePeriod : Option Nat := none
  resourcesSpec : Option Nat := none
  platformId : Option String := none
  networkSettings : Option Nat := none
  schedulingPolicy : Option Nat := none
  placementPolicy : Option PlacementPolicy := none
  updateMaskPaths : List String := []
  deriving DecidableEq, Repr

/-- compute.MoveInstanceRequest. -/
structure MoveInstanceRequest where
  instanceId : String
  destinationFolderId : String
  deriving DecidableEq, Repr

/-- A remote API call issued by the compute instance resource.  Requests
whose payloads are produced by expanders outside these files carry an
abstract `Nat` token. -/
inductive Event where
  | getInstance (instanceId : String)
  | stop (instanceId : String)
  | start (instanceId : String)
  | update (req : UpdateInstanceRequest)
  | move (req : MoveInstanceRequest)
  | removeNat (req : Nat)
  | addNat (req : Nat)
  | updateIface (req : Nat)
  | attachIface (req : Nat)
  | detachIface (req : Nat)
  | detachDisk (req : Nat)
  | attachDisk (req : Nat)
  | detachFs (req : Nat)
  | attachFs (req : Nat)
  | deleteInstance (instanceId : String)
  | createInstance
  deriving DecidableEq, Repr

/-- Errors returned by the update flow: the allow-stopping guard error
(carrying the property names joined into the message), an SDK failure of
the n-th remote call, a bad create-operation metadata, a failed state
Set, or an expansion error. -/
inductive UErr where
  | notAllowedStopping (props : List String)
  | sdkFail (n : Nat)
  | metadataErr
  | setFailed (field : String)
  | expandErr (msg : String)
  deriving DecidableEq, Repr

/-- The effect monad of the embedding: given the number of remote calls
already made, a computation returns the events it emits, the new call
count, and its result. -/
def M (α : Type) : Type := Nat → List Event × Nat × Except UErr α

/-- Oracle deciding whether the n-th remote call (WrapOperation + Wait)
succeeds. -/
def Oracle : Type := Nat → Bool

def mpure {α : Type} (a : α) : M α := fun n => ([], n, Except.ok a)

def mfail {α : Type} (e : UErr) : M α := fun n => ([], n, Except.error e)

def mbind {α β : Type} (m : M α) (f : α → M β) : M β := fun n =>
  match m n with
  | (t, n1, Except.ok a) =>
      match f a n1 with
      | (t2, n2, r) => (t ++ t2, n2, r)
  | (t, n1, Except.error e) => (t, n1, Except.error e)

/-- Sequencing: run the second computation only when the first one
returned without error (Go early-return on error). -/
def mseq (m : M Unit) (k : M Unit) : M Unit := mbind m fun _ => k

/-- Issue one remote call: the event is emitted, and the call fails when
the oracle rejects this call position. -/
def call (o : Oracle) (e : Event) : M Unit := fun n =>
  ([e], n + 1, if o n then Except.ok () else Except.error (UErr.sdkFail n))

/-- Issue one remote call per list element, stopping at the first failed
call (the Go for-loops over request slices return on the first error). -/
def callEach (o : Oracle) (f : Nat → Event) : List Nat → M Unit
  | [] => mpure ()
  | x :: xs => mseq (call o (f x)) (callEach o f xs)

/-- Trace of a run. -/
def runTr (m : M Unit) (n : Nat) : List Event := (m n).1

/-- Result of a run. -/
def runRes (m : M Unit) (n : Nat) : Except UErr Unit := (m n).2.2

/-- The schema.ResourceData visible to the compute instance update code.
`hasChange`, `getStr`, `getBool`, `getInt` model d.HasChange / d.Get for
the keyed properties; the remaining fields are the results of the leaf
expanders and of the network-interface / disk / filesystem diff helpers,
which are computed from data outside these files and are therefore taken
as inputs. -/
structure ResourceData where
  id : String
  hasChange : String → Bool
  getStr : String → String
  getBool : String → Bool
  getInt : String → Int
  labelsVal : List (String × String)
  metadataVal : List (String × String)
  metadataOptionsVal : Nat
  resourcesSpecVal : Nat
  networkSettingsVal : Nat
  schedulingPolicyVal : Nat
  hostAffinityRulesVal : Nat
  maintenanceGracePeriodVal : Nat
  ifaceLensDiffer : Bool
  attachIfaceReqs : List Nat
  detachIfaceReqs : List Nat
  updateIfaceReqs : List Nat
  updateIfaceNeedStop : Bool
  addNatReqs : List Nat
  removeNatReqs : List Nat
  detachDiskReqs : List Nat
  attachDiskReqs : List Nat
  detachFsReqs : List Nat
  attachFsReqs : List Nat

/-- ensureAllowStoppingForUpdate: error (naming the properties) unless
allow_stopping_for_update is set. -/
def ensureAllowStoppingForUpdate (d : ResourceData) (props : List String) : M Unit :=
  if d.getBool "allow_stopping_for_update" then mpure ()
  else mfail (UErr.notAllowedStopping props)

/-- expandMaintenancePolicy: GetOk is true for a non-empty string value;
an unknown non-empty value is an error. -/
def expandMaintenancePolicy (d : ResourceData) : Except UErr MaintenancePolicy :=
  if d.getStr "maintenance_policy" ≠ "" then
    if d.getStr "maintenance_policy" = "unspecified" then Except.ok MaintenancePolicy.unspecified
    else if d.getStr "maintenance_policy" = "restart" then Except.ok MaintenancePolicy.restart
    else if d.getStr "maintenance_policy" = "migrate" then Except.ok MaintenancePolicy.migrate
    else Except.error (UErr.expandErr "unknown maintenance_policy")
  else Except.ok MaintenancePolicy.unspecified

/-- preparePlacementPolicyForUpdateRequest: builds the placement policy
value and the mask paths from the changed placement_policy subfields
(closed form of the sequential appends in the source). -/
def preparePlacementPolicyForUpdateRequest (d : ResourceData) : PlacementPolicy × List String :=
  ({ placementGroupId :=
       if d.hasChange "placement_policy.0.placement_group_id" then
         d.getStr "placement_policy.0.placement_group_id" else ""
     hostAffinityRules :=
       if d.hasChange "placement_policy.0.host_affinity_rules" then
         d.hostAffinityRulesVal else 0
     placementGroupPartition :=
       if d.hasChange "placement_policy.0.placement_group_partition" then
         d.getInt "placement_policy.0.placement_group_partition" else 0 },
   (if d.hasChange "placement_policy.0.placement_group_id" then
      ["placement_policy.placement_group_id"] else []) ++
   (if d.hasChange "placement_policy.0.host_affinity_rules" then
      ["placement_policy.host_affinity_rules"] else []) ++
   (if d.hasChange "placement_policy.0.placement_group_partition" then
      ["placement_policy.placement_group_partition"] else []))

/-- The labels-only update request. -/
def labelsReq (d : ResourceData) : UpdateInstanceRequest :=
  { instanceId := d.id, labels := some d.labelsVal, updateMaskPaths := ["labels"] }

/-- The metadata-only update request. -/
def metadataReq (d : ResourceData) : UpdateInstanceRequest :=
  { instanceId := d.id, metadata := some d.metadataVal, updateMaskPaths := ["metadata"] }

/-- The metadata_options-only update request. -/
def metadataOptionsReq (d : ResourceData) : UpdateInstanceRequest :=
  { instanceId := d.id, metadataOptions := some d.metadataOptionsVal,
    updateMaskPaths := ["metadata_options"] }

/-- The name-only update request. -/
def nameReq (d : ResourceData) : UpdateInstanceRequest :=
  { instanceId := d.id, name := some (d.getStr "name"), updateMaskPaths := ["name"] }

/-- The description-only update request. -/
def descriptionReq (d : ResourceData) : UpdateInstanceRequest :=
  { instanceId := d.id, description := some (d.getStr "description"),
    updateMaskPaths := ["description"] }

/-- The service_account_id-only update request. -/
def serviceAccountReq (d : ResourceData) : UpdateInstanceRequest :=
  { instanceId := d.id, serviceAccountId := some (d.getStr "service_account_id"),
    updateMaskPaths := ["service_account_id"] }

/-- The maintenance policy / grace period update request (closed form of
the two guarded assignments in the source). -/
def maintenanceReq (d : ResourceData) (mp : MaintenancePolicy) : UpdateInstanceRequest :=
  { instanceId := d.id
    maintenancePolicy :=
      if d.hasChange "maintenance_policy" then some mp else none
    maintenanceGracePeriod :=
      if d.hasChange "maintenance_grace_period" then some d.maintenanceGracePeriodVal else none
    updateMaskPaths :=
      (if d.hasChange "maintenance_policy" then ["maintenance_policy"] else []) ++
      (if d.hasChange "maintenance_grace_period" then ["maintenance_grace_period"] else []) }

/-- The combined stopped-instance update request: platform, resources,
network settings, scheduling policy and placement policy in one request
(closed form of the five guarded blocks at lines 1375-1414 of the
source). -/
def combinedReq (d : ResourceData) : UpdateInstanceRequest :=
  { instanceId := d.id
    resourcesSpec := if d.hasChange "resources" then some d.resourcesSpecVal else none
    platformId := if d.hasChange "platform_id" then some (d.getStr "platform_id") else none
    networkSettings :=
      if d.hasChange "network_acceleration_type" then some d.networkSettingsVal else none
    schedulingPolicy :=
      if d.hasChange "scheduling_policy" then some d.schedulingPolicyVal else none
    placementPolicy :=
      if d.hasChange "placement_policy" then
        some (preparePlacementPolicyForUpdateRequest d).1 else none
    updateMaskPaths :=
      (if d.hasChange "resources" then ["resources_spec"] else []) ++
      (if d.hasChange "platform_id" then ["platform_id"] else []) ++
      (if d.hasChange "network_acceleration_type" then ["network_settings"] else []) ++
      (if d.hasChange "scheduling_policy" then ["scheduling_policy.preemptible"] else []) ++
      (if d.hasChange "placement_policy" then
        (preparePlacementPolicyForUpdateRequest d).2 else []) }

/-- needUpdateInterfacesOnStoppedInstance: set when the interface count
changed, or when getSpecsForUpdateNetworkInterfaces flagged a change that
needs a stopped instance; it stays false when network_interface did not
change. -/
def needUpdateInterfacesOnStoppedInstance (d : ResourceData) : Bool :=
  d.hasChange "network_interface" &&
    (if d.ifaceLensDiffer then true else d.updateIfaceNeedStop)

/-- The attach-interface request list actually in scope (non-nil only in
the length-changed branch). -/
def effAttachIface (d : ResourceData) : List Nat :=
  if d.hasChange "network_interface" && d.ifaceLensDiffer then d.attachIfaceReqs else []

/-- The detach-interface request list actually in scope. -/
def effDetachIface (d : ResourceData) : List Nat :=
  if d.hasChange "network_interface" && d.ifaceLensDiffer then d.detachIfaceReqs else []

/-- The update-interface request list actually in scope (non-nil only in
the equal-length branch). -/
def effUpdateIface (d : ResourceData) : List Nat :=
  if d.hasChange "network_interface" && !d.ifaceLensDiffer then d.updateIfaceReqs else []

/-- The add-NAT request list actually in scope. -/
def effAddNat (d : ResourceData) : List Nat :=
  if d.hasChange "network_interface" && !d.ifaceLensDiffer then d.addNatReqs else []

/-- The remove-NAT request list actually in scope. -/
def effRemoveNat (d : ResourceData) : List Nat :=
  if d.hasChange "network_interface" && !d.ifaceLensDiffer then d.removeNatReqs else []

/-- The folder_id block of the update flow (source lines 948-982). -/
def folderBlock (o : Oracle) (d : ResourceData) (status : InstanceStatus) : M Unit :=
  if d.hasChange "folder_id" then
    if !d.getBool "allow_recreate" then
      mseq (ensureAllowStoppingForUpdate d ["folder_id"])
        (mseq (if status ≠ InstanceStatus.stopped then call o (Event.stop d.id) else mpure ())
          (mseq (call o (Event.move { instanceId := d.id,
                                      destinationFolderId := d.getStr "folder_id" }))
            (call o (Event.start d.id))))
    else
      mseq (call o (Event.deleteInstance d.id)) (call o Event.createInstance)
  else mpure ()

/-- The labels block. -/
def labelsBlock (o : Oracle) (d : ResourceData) : M Unit :=
  if d.hasChange "labels" then call o (Event.update (labelsReq d)) else mpure ()

/-- The metadata block. -/
def metadataBlock (o : Oracle) (d : ResourceData) : M Unit :=
  if d.hasChange "metadata" then call o (Event.update (metadataReq d)) else mpure ()

/-- The metadata_options block. -/
def metadataOptionsBlock (o : Oracle) (d : ResourceData) : M Unit :=
  if d.hasChange "metadata_options" then call o (Event.update (metadataOptionsReq d))
  else mpure ()

/-- The name block. -/
def nameBlock (o : Oracle) (d : ResourceData) : M Unit :=
  if d.hasChange "name" then call o (Event.update (nameReq d)) else mpure ()

/-- The description block. -/
def descriptionBlock (o : Oracle) (d : ResourceData) : M Unit :=
  if d.hasChange "description" then call o (Event.update (descriptionReq d)) else mpure ()

/-- The service_account_id block. -/
def serviceAccountBlock (o : Oracle) (d : ResourceData) : M Unit :=
  if d.hasChange "service_account_id" then call o (Event.update (serviceAccountReq d))
  else mpure ()

/-- The maintenance policy / grace period block (the policy expansion can
fail, in which case the update returns before issuing the request). -/
def maintenanceBlock (o : Oracle) (d : ResourceData) : M Unit :=
  if d.hasChange "maintenance_policy" || d.hasChange "maintenance_grace_period" then
    match (if d.hasChange "maintenance_policy" then expandMaintenancePolicy d
           else Except.ok MaintenancePolicy.unspecified) with
    | Except.error e => mfail e
    | Except.ok mp => call o (Event.update (maintenanceReq d mp))
  else mpure ()

/-- The network-interface block executed on a running instance: NAT and
interface update requests are issued here only when no change was flagged
as needing a stopped instance (source lines 1164-1183). -/
def ifaceRunningBlock (o : Oracle) (d : ResourceData) : M Unit :=
  if d.hasChange "network_interface" &&
     !needUpdateInterfacesOnStoppedInstance d &&
     (!(effRemoveNat d).isEmpty || !(effAddNat d).isEmpty || !(effUpdateIface d).isEmpty) then
    mseq (callEach o Event.removeNat (effRemoveNat d))
      (mseq (callEach o Event.addNat (effAddNat d))
        (callEach o Event.updateIface (effUpdateIface d)))
  else mpure ()

/-- The secondary_disk block: detach calls then attach calls. -/
def disksBlock (o : Oracle) (d : ResourceData) : M Unit :=
  if d.hasChange "secondary_disk" then
    mseq (callEach o Event.detachDisk d.detachDiskReqs)
      (callEach o Event.attachDisk d.attachDiskReqs)
  else mpure ()

/-- The filesystem block: detach calls then attach calls. -/
def fsBlock (o : Oracle) (d : ResourceData) : M Unit :=
  if d.hasChange "filesystem" then
    mseq (callEach o Event.detachFs d.detachFsReqs)
      (callEach o Event.attachFs d.attachFsReqs)
  else mpure ()

/-- The stop condition of the stopped-instance block (source line 1354). -/
def stopNeeded (d : ResourceData) : Bool :=
  d.hasChange "resources" || d.hasChange "platform_id" ||
  d.hasChange "network_acceleration_type" || needUpdateInterfacesOnStoppedInstance d ||
  d.hasChange "scheduling_policy" || d.hasChange "placement_policy"

/-- The properties named by the allow-stopping guard of the stopped
block. -/
def stopNeededProps : List String :=
  ["resources", "platform_id", "network_acceleration_type", "scheduling_policy",
   "placement_policy"]

/-- The guard of the combined update request inside the stopped block
(source line 1366). -/
def combinedNeeded (d : ResourceData) : Bool :=
  d.hasChange "resources" || d.hasChange "platform_id" ||
  d.hasChange "network_acceleration_type" || d.hasChange "placement_policy" ||
  d.hasChange "scheduling_policy"

/-- The stopped-instance block (source lines 1354-1470): guard, Stop, the
combined update request, interface work on the stopped instance, Start. -/
def stoppedBlock (o : Oracle) (d : ResourceData) : M Unit :=
  if stopNeeded d then
    mseq (ensureAllowStoppingForUpdate d stopNeededProps)
      (mseq (call o (Event.stop d.id))
        (mseq (if combinedNeeded d then call o (Event.update (combinedReq d)) else mpure ())
          (mseq (if needUpdateInterfacesOnStoppedInstance d then
                   mseq (callEach o Event.removeNat (effRemoveNat d))
                     (mseq (callEach o Event.addNat (effAddNat d))
                       (mseq (callEach o Event.updateIface (effUpdateIface d))
                         (mseq (callEach o Event.attachIface (effAttachIface d))
                           (callEach o Event.detachIface (effDetachIface d)))))
                 else mpure ())
            (call o (Event.start d.id)))))
  else mpure ()

/-- The blocks of the update flow after the folder block and before the
stopped-instance block, in source order. -/
def postFolderBlocks (o : Oracle) (d : ResourceData) : M Unit :=
  mseq (labelsBlock o d)
    (mseq (metadataBlock o d)
      (mseq (metadataOptionsBlock o d)
        (mseq (nameBlock o d)
          (mseq (descriptionBlock o d)
            (mseq (serviceAccountBlock o d)
              (mseq (maintenanceBlock o d)
                (mseq (ifaceRunningBlock o d)
                  (mseq (disksBlock o d) (fsBlock o d)))))))))

/-- All blocks of the update flow before the stopped-instance block, in
source order. -/
def preUpdateBlocks (o : Oracle) (d : ResourceData) (status : InstanceStatus) : M Unit :=
  mseq (folderBlock o d status) (postFolderBlocks o d)

/-- resourceYandexComputeInstanceUpdate: the initial Get, the blocks
before the stopped-instance block, the stopped-instance block, and the
final Read (a Get call). -/
def resourceYandexComputeInstanceUpdate (o : Oracle) (d : ResourceData)
    (status : InstanceStatus) : M Unit :=
  mseq (call o (Event.getInstance d.id))
    (mseq (preUpdateBlocks o d status)
      (mseq (stoppedBlock o d) (call o (Event.getInstance d.id))))

/-! ## Lemma kit for the trace monad -/

/-- Every event emitted by the computation satisfies P, for every start
counter and regardless of call outcomes. -/
def TrAll (P : Event → Prop) (m : M Unit) : Prop :=
  ∀ n, ∀ e ∈ (m n).1, P e

/-- The computation returns without error for every start counter. -/
def AlwaysOk (m : M Unit) : Prop :=
  ∀ n, (m n).2.2 = Except.ok ()

theorem trAll_mpure (P : Event → Prop) : TrAll P (mpure ()) := by
  intro n e he
  simp [mpure] at he

theorem trAll_mfail (P : Event → Prop) (er : UErr) : TrAll P (mfail er) := by
  intro n e he
  simp [mfail] at he

theorem trAll_call (P : Event → Prop) (o : Oracle) (e : Event) (h : P e) :
    TrAll P (call o e) := by
  intro n x hx
  simp [call] at hx
  simpa [hx] using h

theorem trAll_mseq (P : Event → Prop) (m k : M Unit)
    (h1 : TrAll P m) (h2 : TrAll P k) : TrAll P (mseq m k) := by
  intro n e he
  simp only [mseq, mbind] at he
  rcases hm : m n with ⟨t, n1, r⟩
  cases r with
  | ok a =>
      rw [hm] at he
      simp only [List.mem_append] at he
      rcases he with h | h
      · exact h1 n e (by rw [hm]; exact h)
      · exact h2 n1 e h
  | error er =>
      rw [hm] at he
      exact h1 n e (by rw [hm]; exact he)

theorem trAll_ite (P : Event → Prop) (c : Prop) [Decidable c] (m k : M Unit)
    (h1 : TrAll P m) (h2 : TrAll P k) : TrAll P (if c then m else k) := by
  by_cases h : c <;> simp [h, h1, h2]

theorem trAll_ite_cond (P : Event → Prop) (c : Prop) [Decidable c] (m k : M Unit)
    (h1 : c → TrAll P m) (h2 : ¬c → TrAll P k) : TrAll P (if c then m else k) := by
  by_cases h : c
  · simpa [h] using h1 h
  · simpa [h] using h2 h

theorem trAll_callEach (P : Event → Prop) (o : Oracle) (f : Nat → Event)
    (xs : List Nat) (h : ∀ x ∈ xs, P (f x)) : TrAll P (callEach o f xs) := by
  induction xs with
  | nil => exact trAll_mpure P
  | cons x rest ih =>
      exact trAll_mseq P _ _
        (trAll_call P o (f x) (h x (by simp)))
        (ih (fun y hy => h y (by simp [hy])))

theorem trAll_mono (P Q : Event → Prop) (m : M Unit)
    (h : TrAll P m) (hpq : ∀ e, P e → Q e) : TrAll Q m := by
  intro n e he
  exact hpq e (h n e he)

theorem alwaysOk_mpure : AlwaysOk (mpure ()) := by
  intro n; simp [mpure]

theorem alwaysOk_call (o : Oracle) (e : Event) (ho : ∀ m, o m = true) :
    AlwaysOk (call o e) := by
  intro n; simp [call, ho n]

theorem alwaysOk_mseq (m k : M Unit) (h1 : AlwaysOk m) (h2 : AlwaysOk k) :
    AlwaysOk (mseq m k) := by
  intro n
  simp only [mseq, mbind]
  rcases hm : m n with ⟨t, n1, r⟩
  have := h1 n
  rw [hm] at this
  simp at this
  subst this
  simpa using h2 n1

theorem alwaysOk_ite (c : Prop) [Decidable c] (m k : M Unit)
    (h1 : AlwaysOk m) (h2 : AlwaysOk k) : AlwaysOk (if c then m else k) := by
  by_cases h : c <;> simp [h, h1, h2]

theorem alwaysOk_callEach (o : Oracle) (f : Nat → Event) (xs : List Nat)
    (ho : ∀ m, o m = true) : AlwaysOk (callEach o f xs) := by
  induction xs with
  | nil => exact alwaysOk_mpure
  | cons x rest ih => exact alwaysOk_mseq _ _ (alwaysOk_call o (f x) ho) ih

/-- Trace of a successful sequencing splits into the two parts. -/
theorem mseq_tr_ok (m k : M Unit) (n : Nat) (h : (m n).2.2 = Except.ok ()) :
    (mseq m k n).1 = (m n).1 ++ (k (m n).2.1).1 ∧
    (mseq m k n).2.2 = (k (m n).2.1).2.2 := by
  simp only [mseq, mbind]
  rcases hm : m n with ⟨t, n1, r⟩
  rw [hm] at h
  simp at h
  subst h
  simp

/-- A failed first component short-circuits the sequencing. -/
theorem mseq_tr_err (m k : M Unit) (n : Nat) (er : UErr)
    (h : (m n).2.2 = Except.error er) :
    (mseq m k n).1 = (m n).1 ∧ (mseq m k n).2.2 = Except.error er := by
  simp only [mseq, mbind]
  rcases hm : m n with ⟨t, n1, r⟩
  rw [hm] at h
  simp at h
  subst h
  simp

/-- A sequencing is successful iff both parts are. -/
theorem mseq_ok_iff (m k : M Unit) (n : Nat) :
    (mseq m k n).2.2 = Except.ok () ↔
    ((m n).2.2 = Except.ok () ∧ (k (m n).2.1).2.2 = Except.ok ()) := by
  simp only [mseq, mbind]
  rcases hm : m n with ⟨t, n1, r⟩
  cases r <;> simp

/-! ## parseHostnameFromFQDN -/

/-- parseHostnameFromFQDN, translated from the source: a name without a
dot gets a trailing dot; an `.auto.internal` FQDN maps to the empty
hostname; an `.internal` FQDN maps to its first component; anything else
is returned unchanged.  The source never returns a non-nil error. -/
def parseHostnameFromFQDN (fqdn : String) : Except String String :=
  if !fqdn.contains '.' then Except.ok (fqdn ++ ".")
  else if fqdn.endsWith ".auto.internal" then Except.ok ""
  else if fqdn.endsWith ".internal" then Except.ok ((fqdn.splitOn ".").headD "")
  else Except.ok fqdn

/-- The hostname mapping as worded by the claim. -/
def parseHostnameFromFQDNSpec (fqdn : String) : String :=
  if !fqdn.contains '.' then fqdn ++ "."
  else if fqdn.endsWith ".auto.internal" then ""
  else if fqdn.endsWith ".internal" then (fqdn.splitOn ".").headD ""
  else fqdn

/-- C9: for every string, parseHostnameFromFQDN never returns an error
and returns exactly the value described by the claim: the input with a
trailing dot when it has no dot, the empty string for `.auto.internal`
FQDNs, the first dot-separated component for other `.internal` FQDNs,
and the input unchanged otherwise. -/
theorem parseHostnameFromFQDN_total_spec (fqdn : String) :
    parseHostnameFromFQDN fqdn = Except.ok (parseHostnameFromFQDNSpec fqdn) := by
  unfold parseHostnameFromFQDN parseHostnameFromFQDNSpec
  by_cases h1 : fqdn.contains '.'
  · by_cases h2 : fqdn.endsWith ".auto.internal"
    · simp [h1, h2]
    · by_cases h3 : fqdn.endsWith ".internal" <;> simp [h1, h2, h3]
  · simp [h1]

/-! ## Advanced Rate Limiter profile: rules mapping (expand / flatten)

The expand and flatten helpers for the ARL rules are referenced by the
resource file but are defined elsewhere in the repository; they are
modelled here from the spec and from the resource schema. -/

/-- AdvancedRateLimiterRule.Action enum of the ARL API. -/
inductive ArlRuleAction where
  | actionUnspecified
  | deny
  deriving DecidableEq, Repr

/-- Modelled from the spec: the parse function for the rule action used
by the schema validation (possible value `DENY`); the empty string is
the unset value. -/
def parseArlRuleAction : String → Option ArlRuleAction
  | "" => some ArlRuleAction.actionUnspecified
  | "DENY" => some ArlRuleAction.deny
  | _ => none

/-- String form of a rule action, the unset value printing as empty. -/
def arlRuleActionStr : ArlRuleAction → String
  | ArlRuleAction.actionUnspecified => ""
  | ArlRuleAction.deny => "DENY"

/-- Simple characteristic type enum (`REQUEST_PATH`, `HTTP_METHOD`,
`IP`, `GEO`, `HOST`). -/
inductive SimpleCharacteristicType where
  | typeUnspecified
  | requestPath
  | httpMethod
  | ip
  | geo
  | host
  deriving DecidableEq, Repr

/-- Modelled from the spec: parse of the simple characteristic type. -/
def parseSimpleCharacteristicType : String → Option SimpleCharacteristicType
  | "" => some SimpleCharacteristicType.typeUnspecified
  | "REQUEST_PATH" => some SimpleCharacteristicType.requestPath
  | "HTTP_METHOD" => some SimpleCharacteristicType.httpMethod
  | "IP" => some SimpleCharacteristicType.ip
  | "GEO" => some SimpleCharacteristicType.geo
  | "HOST" => some SimpleCharacteristicType.host
  | _ => none

/-- String form of a simple characteristic type. -/
def simpleCharacteristicTypeStr : SimpleCharacteristicType → String
  | SimpleCharacteristicType.typeUnspecified => ""
  | SimpleCharacteristicType.requestPath => "REQUEST_PATH"
  | SimpleCharacteristicType.httpMethod => "HTTP_METHOD"
  | SimpleCharacteristicType.ip => "IP"
  | SimpleCharacteristicType.geo => "GEO"
  | SimpleCharacteristicType.host => "HOST"

/-- Key characteristic type enum (`COOKIE_KEY`, `HEADER_KEY`,
`QUERY_KEY`). -/
inductive KeyCharacteristicType where
  | typeUnspecified
  | cookieKey
  | headerKey
  | queryKey
  deriving DecidableEq, Repr

/-- Modelled from the spec: parse of the key characteristic type. -/
def parseKeyCharacteristicType : String → Option KeyCharacteristicType
  | "" => some KeyCharacteristicType.typeUnspecified
  | "COOKIE_KEY" => some KeyCharacteristicType.cookieKey
  | "HEADER_KEY" => some KeyCharacteristicType.headerKey
  | "QUERY_KEY" => some KeyCharacteristicType.queryKey
  | _ => none

/-- String form of a key characteristic type. -/
def keyCharacteristicTypeStr : KeyCharacteristicType → String
  | KeyCharacteristicType.typeUnspecified => ""
  | KeyCharacteristicType.cookieKey => "COOKIE_KEY"
  | KeyCharacteristicType.headerKey => "HEADER_KEY"
  | KeyCharacteristicType.queryKey => "QUERY_KEY"

/-- Schema-side characteristic block: case_insensitive plus exactly one
of the two nested single-item lists (`key_characteristic`,
`simple_characteristic`), each as an optional value. -/
structure CharacteristicCfg where
  caseInsensitive : Bool
  keyCharacteristicType : Option (String × String)
  simpleCharacteristicType : Option String
  deriving DecidableEq, Repr

/-- API-side characteristic payload: the oneof of the rule message. -/
inductive CharacteristicSpec where
  | keyCharacteristic (typ : KeyCharacteristicType) (value : String)
  | simpleCharacteristic (typ : SimpleCharacteristicType)
  deriving DecidableEq, Repr

/-- API-side characteristic message. -/
structure Characteristic where
  caseInsensitive : Bool
  payload : CharacteristicSpec
  deriving DecidableEq, Repr

/-- Schema-side quota block (static and dynamic quotas share the fields
used here; the dynamic quota adds the characteristics list).  The
condition subtree is carried as an abstract token, unchanged by the
mapping. -/
structure StaticQuotaCfg where
  action : String
  condition : Option Nat
  limit : Int
  period : Int
  deriving DecidableEq, Repr

structure DynamicQuotaCfg where
  action : String
  condition : Option Nat
  characteristics : List CharacteristicCfg
  limit : Int
  period : Int
  deriving DecidableEq, Repr

/-- Schema-side ARL rule: name, priority, description, dry_run and
exactly one of the two quota specifiers. -/
structure ArlRuleCfg where
  name : String
  priority : Int
  description : String
  dryRun : Bool
  staticQuota : Option StaticQuotaCfg
  dynamicQuota : Option DynamicQuotaCfg
  deriving DecidableEq, Repr

/-- API-side static quota message. -/
structure StaticQuota where
  action : ArlRuleAction
  condition : Option Nat
  limit : Int
  period : Int
  deriving DecidableEq, Repr

/-- API-side dynamic quota message. -/
structure DynamicQuota where
  action : ArlRuleAction
  condition : Option Nat
  characteristics : List Characteristic
  limit : Int
  period : Int
  deriving DecidableEq, Repr

/-- The oneof quota payload of the rule message. -/
inductive ArlQuota where
  | staticQuota (q : StaticQuota)
  | dynamicQuota (q : DynamicQuota)
  deriving DecidableEq, Repr

/-- API-side ARL rule message. -/
structure ArlRule where
  name : String
  priority : Int
  description : String
  dryRun : Bool
  quota : ArlQuota
  deriving DecidableEq, Repr

/-- Error-propagating map over a list, mirroring the Go loops that
return on the first expansion error. -/
def exceptMapM {α β : Type} (f : α → Except String β) : List α → Except String (List β)
  | [] => Except.ok []
  | x :: xs =>
      match f x with
      | Except.error e => Except.error e
      | Except.ok y =>
          match exceptMapM f xs with
          | Except.error e => Except.error e
          | Except.ok ys => Except.ok (y :: ys)

/-- Modelled from the spec: expansion of one schema characteristic into
the API message; exactly one of the two nested specifiers must be set,
and the type strings must parse. -/
def expandArlCharacteristic (c : CharacteristicCfg) : Except String Characteristic :=
  match c.keyCharacteristicType, c.simpleCharacteristicType with
  | some kv, none =>
      match parseKeyCharacteristicType kv.1 with
      | none => Except.error "invalid key characteristic type"
      | some t =>
          Except.ok { caseInsensitive := c.caseInsensitive
                      payload := CharacteristicSpec.keyCharacteristic t kv.2 }
  | none, some s =>
      match parseSimpleCharacteristicType s with
      | none => Except.error "invalid simple characteristic type"
      | some t =>
          Except.ok { caseInsensitive := c.caseInsensitive
                      payload := CharacteristicSpec.simpleCharacteristic t }
  | _, _ => Except.error "exactly one characteristic specifier should be specified"

/-- Flattening of one API characteristic back into the schema block. -/
def flattenArlCharacteristic (c : Characteristic) : CharacteristicCfg :=
  match c.payload with
  | CharacteristicSpec.keyCharacteristic t v =>
      { caseInsensitive := c.caseInsensitive
        keyCharacteristicType := some (keyCharacteristicTypeStr t, v)
        simpleCharacteristicType := none }
  | CharacteristicSpec.simpleCharacteristic t =>
      { caseInsensitive := c.caseInsensitive
        keyCharacteristicType := none
        simpleCharacteristicType := some (simpleCharacteristicTypeStr t) }

/-- Modelled from the spec: expansion of one schema rule into the API
rule message (`expandAdvancedRateLimiterProfileAdvancedRateLimiterRulesSlice`
element); exactly one quota specifier must be set. -/
def expandArlRule (r : ArlRuleCfg) : Except String ArlRule :=
  match r.staticQuota, r.dynamicQuota with
  | some sq, none =>
      match parseArlRuleAction sq.action with
      | none => Except.error "invalid action"
      | some a =>
          Except.ok { name := r.name, priority := r.priority,
                      description := r.description, dryRun := r.dryRun,
                      quota := ArlQuota.staticQuota
                        { action := a, condition := sq.condition,
                          limit := sq.limit, period := sq.period } }
  | none, some dq =>
      match parseArlRuleAction dq.action with
      | none => Except.error "invalid action"
      | some a =>
          match exceptMapM expandArlCharacteristic dq.characteristics with
          | Except.error e => Except.error e
          | Except.ok cs =>
              Except.ok { name := r.name, priority := r.priority,
                          description := r.description, dryRun := r.dryRun,
                          quota := ArlQuota.dynamicQuota
                            { action := a, condition := dq.condition,
                              characteristics := cs,
                              limit := dq.limit, period := dq.period } }
  | _, _ => Except.error "exactly one rule specifier should be specified"

/-- Flattening of one API rule back into the schema block
(`flattenAdvancedXrateXlimiterAdvancedRateLimiterRuleSlice` element),
modelled from the spec. -/
def flattenArlRule (r : ArlRule) : ArlRuleCfg :=
  match r.quota with
  | ArlQuota.staticQuota sq =>
      { name := r.name, priority := r.priority, description := r.description,
        dryRun := r.dryRun,
        staticQuota := some { action := arlRuleActionStr sq.action,
                              condition := sq.condition,
                              limit := sq.limit, period := sq.period }
        dynamicQuota := none }
  | ArlQuota.dynamicQuota dq =>
      { name := r.name, priority := r.priority, description := r.description,
        dryRun := r.dryRun,
        staticQuota := none,
        dynamicQuota := some { action := arlRuleActionStr dq.action,
                               condition := dq.condition,
                               characteristics :=
                                 dq.characteristics.map flattenArlCharacteristic,
                               limit := dq.limit, period := dq.period } }

/-- Modelled from the spec: the rule-slice expansion used on Create. -/
def expandAdvancedRateLimiterProfileAdvancedRateLimiterRulesSlice
    (rs : List ArlRuleCfg) : Except String (List ArlRule) :=
  exceptMapM expandArlRule rs

/-- Modelled from the spec: the rule-slice flattening used on Read. -/
def flattenAdvancedXrateXlimiterAdvancedRateLimiterRuleSlice
    (rs : List ArlRule) : List ArlRuleCfg :=
  rs.map flattenArlRule

theorem parseArlRuleAction_inv (s : String) (a : ArlRuleAction)
    (h : parseArlRuleAction s = some a) : arlRuleActionStr a = s := by
  unfold parseArlRuleAction at h
  split at h
  all_goals first
    | exact Option.noConfusion h
    | (injection h with h2; subst h2; rfl)

theorem parseSimpleCharacteristicType_inv (s : String) (t : SimpleCharacteristicType)
    (h : parseSimpleCharacteristicType s = some t) : simpleCharacteristicTypeStr t = s := by
  unfold parseSimpleCharacteristicType at h
  split at h
  all_goals first
    | exact Option.noConfusion h
    | (injection h with h2; subst h2; rfl)

theorem parseKeyCharacteristicType_inv (s : String) (t : KeyCharacteristicType)
    (h : parseKeyCharacteristicType s = some t) : keyCharacteristicTypeStr t = s := by
  unfold parseKeyCharacteristicType at h
  split at h
  all_goals first
    | exact Option.noConfusion h
    | (injection h with h2; subst h2; rfl)

theorem flattenArlCharacteristic_expand (c : CharacteristicCfg) (ch : Characteristic)
    (h : expandArlCharacteristic c = Except.ok ch) : flattenArlCharacteristic ch = c := by
  unfold expandArlCharacteristic at h
  rcases c with ⟨ci, kc, sc⟩
  cases kc with
  | some kv =>
      cases sc with
      | some s => simp at h
      | none =>
          simp only at h
          rcases hp : parseKeyCharacteristicType kv.1 with _ | t
          · rw [hp] at h; simp at h
          · rw [hp] at h
            simp at h
            subst h
            simp [flattenArlCharacteristic, parseKeyCharacteristicType_inv kv.1 t hp]
  | none =>
      cases sc with
      | some s =>
          simp only at h
          rcases hp : parseSimpleCharacteristicType s with _ | t
          · rw [hp] at h; simp at h
          · rw [hp] at h
            simp at h
            subst h
            simp [flattenArlCharacteristic, parseSimpleCharacteristicType_inv s t hp]
      | none => simp at h

theorem exceptMapM_inv {α β : Type} (f : α → Except String β) (g : β → α)
    (hinv : ∀ x y, f x = Except.ok y → g y = x) :
    ∀ xs ys, exceptMapM f xs = Except.ok ys → ys.map g = xs := by
  intro xs
  induction xs with
  | nil => intro ys h; simp [exceptMapM] at h; simp [h.symm]
  | cons x rest ih =>
      intro ys h
      simp only [exceptMapM] at h
      rcases hf : f x with e | y
      · rw [hf] at h; simp at h
      · rw [hf] at h
        rcases hr : exceptMapM f rest with e | ys2
        · rw [hr] at h; simp at h
        · rw [hr] at h
          simp at h
          subst h
          simp [hinv x y hf, ih ys2 hr]

theorem flattenArlRule_expand (r : ArlRuleCfg) (ar : ArlRule)
    (h : expandArlRule r = Except.ok ar) : flattenArlRule ar = r := by
  unfold expandArlRule at h
  rcases r with ⟨nm, pr, ds, dr, sq, dq⟩
  cases sq with
  | some q =>
      cases dq with
      | some q2 => simp at h
      | none =>
          simp only at h
          rcases hp : parseArlRuleAction q.action with _ | a
          · rw [hp] at h; simp at h
          · rw [hp] at h
            simp at h
            subst h
            simp [flattenArlRule, parseArlRuleAction_inv q.action a hp]
  | none =>
      cases dq with
      | some q =>
          simp only at h
          rcases hp : parseArlRuleAction q.action with _ | a
          · rw [hp] at h; simp at h
          · rw [hp] at h
            rcases hm : exceptMapM expandArlCharacteristic q.characteristics with e | cs
            · rw [hm] at h; simp at h
            · rw [hm] at h
              simp at h
              subst h
              simp [flattenArlRule, parseArlRuleAction_inv q.action a hp,
                exceptMapM_inv expandArlCharacteristic flattenArlCharacteristic
                  (fun x y hxy => flattenArlCharacteristic_expand x y hxy)
                  q.characteristics cs hm]
      | none => simp at h

/-- C8: the ARL rule mapping is bidirectional: flattening the API rule
messages produced by the expansion used on Create yields back the
original rule list, i.e. the flatten used on Read is a left inverse of
the expand used on Create on all valid (expandable) inputs. -/
theorem arlRules_flatten_leftInverse_expand (cfgs : List ArlRuleCfg) (rules : List ArlRule)
    (h : expandAdvancedRateLimiterProfileAdvancedRateLimiterRulesSlice cfgs =
         Except.ok rules) :
    flattenAdvancedXrateXlimiterAdvancedRateLimiterRuleSlice rules = cfgs := by
  exact exceptMapM_inv expandArlRule flattenArlRule
    (fun x y hxy => flattenArlRule_expand x y hxy) cfgs rules h

/-- Witness for C8 at a concrete two-rule list (one static-quota rule,
one dynamic-quota rule with a key and a simple characteristic). -/
theorem arlRules_flatten_leftInverse_expand_witness :
    flattenAdvancedXrateXlimiterAdvancedRateLimiterRuleSlice
      [{ name := "r1", priority := 10, description := "d1", dryRun := false,
         quota := ArlQuota.staticQuota
           { action := ArlRuleAction.deny, condition := some 7, limit := 100, period := 60 } },
       { name := "r2", priority := 20, description := "", dryRun := true,
         quota := ArlQuota.dynamicQuota
           { action := ArlRuleAction.deny, condition := none,
             characteristics :=
               [{ caseInsensitive := true,
                  payload := CharacteristicSpec.keyCharacteristic
                    KeyCharacteristicType.headerKey "X-Key" },
                { caseInsensitive := false,
                  payload := CharacteristicSpec.simpleCharacteristic
                    SimpleCharacteristicType.ip }],
             limit := 5, period := 1 } }] =
      [{ name := "r1", priority := 10, description := "d1", dryRun := false,
         staticQuota := some { action := "DENY", condition := some 7,
                               limit := 100, period := 60 },
         dynamicQuota := none },
       { name := "r2", priority := 20, description := "", dryRun := true,
         staticQuota := none,
         dynamicQuota := some { action := "DENY", condition := none,
                                characteristics :=
                                  [{ caseInsensitive := true,
                                     keyCharacteristicType := some ("HEADER_KEY", "X-Key"),
                                     simpleCharacteristicType := none },
                                   { caseInsensitive := false,
                                     keyCharacteristicType := none,
                                     simpleCharacteristicType := some "IP" }],
                                limit := 5, period := 1 } }] := by
  exact arlRules_flatten_leftInverse_expand _ _ rfl

/-! ## Advanced Rate Limiter profile: update field mask (C5) -/

/-- The fixed fields map of the ARL profile update, from the source. -/
def resourceYandexSmartwebsecurityAdvancedRateLimiterAdvancedRateLimiterProfileUpdateFieldsMap :
    List (String × String) :=
  [("labels", "labels"),
   ("name", "name"),
   ("description", "description"),
   ("advanced_rate_limiter_rule", "advanced_rate_limiter_rules")]

/-- Modelled from the spec: `generateFieldMasks` (defined outside these
files) produces the update-mask paths for the changed schema keys by
looking each changed key up in the fields map. -/
def generateFieldMasks (hasChange : String → Bool)
    (fieldsMap : List (String × String)) : List String :=
  fieldsMap.filterMap fun p => if hasChange p.1 then some p.2 else none

/-- C5: every path of the ARL profile UpdateMask is one of the four
values of the fixed fields map, for every resource data (every
has-change valuation). -/
theorem arlProfileUpdateMask_paths_closed (hasChange : String → Bool) :
    ∀ path ∈ generateFieldMasks hasChange
        resourceYandexSmartwebsecurityAdvancedRateLimiterAdvancedRateLimiterProfileUpdateFieldsMap,
      path ∈ ["labels", "name", "description", "advanced_rate_limiter_rules"] := by
  intro path hp
  unfold generateFieldMasks at hp
  rcases List.mem_filterMap.mp hp with ⟨p, hmem, hif⟩
  have hps : p.2 = path := by
    by_cases hc : hasChange p.1 = true
    · simpa [hc] using hif
    · simp [hc] at hif
  subst hps
  simp only [resourceYandexSmartwebsecurityAdvancedRateLimiterAdvancedRateLimiterProfileUpdateFieldsMap,
    List.mem_cons, List.mem_singleton, List.not_mem_nil, or_false] at hmem
  rcases hmem with rfl | rfl | rfl | rfl <;> simp

/-- Witness for C5 at a concrete has-change valuation and path. -/
theorem arlProfileUpdateMask_paths_closed_witness :
    "advanced_rate_limiter_rules" ∈ ["labels", "name", "description",
      "advanced_rate_limiter_rules"] :=
  arlProfileUpdateMask_paths_closed (fun _ => true) "advanced_rate_limiter_rules" (by decide)

/-! ## Advanced Rate Limiter profile: Read (C6) -/

/-- A value written into local state by d.Set. -/
inductive ArlVal where
  | rules (rs : List ArlRuleCfg)
  | str (s : String)
  | labelsMap (m : List (String × String))
  deriving DecidableEq, Repr

/-- The ARL profile message returned by the remote Get. -/
structure AdvancedRateLimiterProfile where
  advancedRateLimiterRules : List ArlRule
  cloudId : String
  createdAt : String
  description : String
  folderId : String
  labels : List (String × String)
  name : String

/-- The d.Set assignments performed by the ARL profile Read, in source
order, with the values taken from the Get response. -/
def arlReadAssignments (resp : AdvancedRateLimiterProfile) : List (String × ArlVal) :=
  [("advanced_rate_limiter_rule",
     ArlVal.rules (flattenAdvancedXrateXlimiterAdvancedRateLimiterRuleSlice
       resp.advancedRateLimiterRules)),
   ("cloud_id", ArlVal.str resp.cloudId),
   ("created_at", ArlVal.str resp.createdAt),
   ("description", ArlVal.str resp.description),
   ("folder_id", ArlVal.str resp.folderId),
   ("labels", ArlVal.labelsMap resp.labels),
   ("name", ArlVal.str resp.name)]

/-- Perform d.Set assignments in order, returning on the first failed
Set (the Read returns the Set error immediately). -/
def setAll (setOk : String → Bool) :
    List (String × ArlVal) → List (String × ArlVal) × Except UErr Unit
  | [] => ([], Except.ok ())
  | kv :: rest =>
      if setOk kv.1 then
        match setAll setOk rest with
        | (st, r) => (kv :: st, r)
      else ([], Except.error (UErr.setFailed kv.1))

/-- The ARL profile Read: one remote Get, then the seven Set assignments
from the response.  The first component counts the Get calls issued. -/
def resourceYandexSmartwebsecurityAdvancedRateLimiterAdvancedRateLimiterProfileRead
    (get : Except UErr AdvancedRateLimiterProfile) (setOk : String → Bool) :
    Nat × List (String × ArlVal) × Except UErr Unit :=
  match get with
  | Except.error e => (1, [], Except.error e)
  | Except.ok resp =>
      match setAll setOk (arlReadAssignments resp) with
      | (st, r) => (1, st, r)

theorem setAll_ok_iff (setOk : String → Bool) (xs : List (String × ArlVal)) :
    (setAll setOk xs).2 = Except.ok () ↔ ∀ kv ∈ xs, setOk kv.1 = true := by
  induction xs with
  | nil => simp [setAll]
  | cons kv rest ih =>
      by_cases h : setOk kv.1
      · rcases hr : setAll setOk rest with ⟨st, r⟩
        simp [setAll, h, hr] at ih ⊢
        exact ih
      · simp [setAll, h]

theorem setAll_ok_state (setOk : String → Bool) (xs : List (String × ArlVal))
    (h : (setAll setOk xs).2 = Except.ok ()) : (setAll setOk xs).1 = xs := by
  induction xs with
  | nil => simp [setAll]
  | cons kv rest ih =>
      by_cases hk : setOk kv.1
      · rcases hr : setAll setOk rest with ⟨st, r⟩
        simp [setAll, hk, hr] at h ih ⊢
        exact ih h
      · simp [setAll, hk] at h

/-- C6: on every Read of the ARL profile, exactly one remote Get call is
issued; on a successful Read the local state holds exactly the seven
fields of the Get response (the rules flattened), and the Read succeeds
iff the Get and every single Set succeed, so any failed Set yields an
error. -/
theorem arlProfileRead_reflects_response
    (resp : AdvancedRateLimiterProfile) (e : UErr) (setOk : String → Bool) :
    (resourceYandexSmartwebsecurityAdvancedRateLimiterAdvancedRateLimiterProfileRead
        (Except.ok resp) setOk).1 = 1 ∧
    (resourceYandexSmartwebsecurityAdvancedRateLimiterAdvancedRateLimiterProfileRead
        (Except.error e) setOk = (1, [], Except.error e)) ∧
    ((resourceYandexSmartwebsecurityAdvancedRateLimiterAdvancedRateLimiterProfileRead
        (Except.ok resp) setOk).2.2 = Except.ok () ↔
      ∀ kv ∈ arlReadAssignments resp, setOk kv.1 = true) ∧
    ((resourceYandexSmartwebsecurityAdvancedRateLimiterAdvancedRateLimiterProfileRead
        (Except.ok resp) setOk).2.2 = Except.ok () →
      (resourceYandexSmartwebsecurityAdvancedRateLimiterAdvancedRateLimiterProfileRead
        (Except.ok resp) setOk).2.1 = arlReadAssignments resp) := by
  rcases hr : setAll setOk (arlReadAssignments resp) with ⟨st, r⟩
  refine ⟨?_, ?_, ?_, ?_⟩
  · simp [resourceYandexSmartwebsecurityAdvancedRateLimiterAdvancedRateLimiterProfileRead, hr]
  · simp [resourceYandexSmartwebsecurityAdvancedRateLimiterAdvancedRateLimiterProfileRead]
  · have := setAll_ok_iff setOk (arlReadAssignments resp)
    rw [hr] at this
    simpa [resourceYandexSmartwebsecurityAdvancedRateLimiterAdvancedRateLimiterProfileRead,
      hr] using this
  · intro h
    simp only [resourceYandexSmartwebsecurityAdvancedRateLimiterAdvancedRateLimiterProfileRead,
      hr] at h ⊢
    have := setAll_ok_state setOk (arlReadAssignments resp) (by rw [hr]; exact h)
    rw [hr] at this
    exact this

/-- Witness for C6 at a concrete response with all Sets succeeding. -/
theorem arlProfileRead_reflects_response_witness :
    (resourceYandexSmartwebsecurityAdvancedRateLimiterAdvancedRateLimiterProfileRead
        (Except.ok { advancedRateLimiterRules := [], cloudId := "c1",
                     createdAt := "t", description := "d", folderId := "f",
                     labels := [("k", "v")], name := "nm" })
        (fun _ => true)).2.1 =
      arlReadAssignments { advancedRateLimiterRules := [], cloudId := "c1",
                           createdAt := "t", description := "d", folderId := "f",
                           labels := [("k", "v")], name := "nm" } :=
  (arlProfileRead_reflects_response _ UErr.metadataErr (fun _ => true)).2.2.2 rfl

/-! ## SDK operation helpers: WrapOperation + op.Wait (C7, C10)

Each mutating remote call in the sources is performed as
`op := WrapOperation(svc.Call(ctx, req))`, then `op.Wait(ctx)`, some
followed by `op.Metadata()` / `op.Response()` checks.  The outcome of
one such interaction is modelled by `OpOutcome`; each helper below is
the error-handling skeleton of the corresponding source function. -/

structure OpOutcome where
  wrapOk : Bool
  metadataOk : Bool
  waitOk : Bool
  responseOk : Bool
  deriving DecidableEq, Repr

/-- Wrap then wait: the common body of the make*Request helpers. -/
def wrapThenWait (o : OpOutcome) : Except UErr Unit :=
  if !o.wrapOk then Except.error (UErr.sdkFail 0)
  else if !o.waitOk then Except.error (UErr.sdkFail 1)
  else Except.ok ()

def makeInstanceUpdateRequest (o : OpOutcome) : Except UErr Unit := wrapThenWait o

def makeInstanceUpdateNetworkInterfaceRequest (o : OpOutcome) : Except UErr Unit :=
  wrapThenWait o

def makeInstanceAddOneToOneNatRequest (o : OpOutcome) : Except UErr Unit := wrapThenWait o

def makeInstanceRemoveOneToOneNatRequest (o : OpOutcome) : Except UErr Unit := wrapThenWait o

def makeInstanceAttachNetworkInterfaceRequest (o : OpOutcome) : Except UErr Unit :=
  wrapThenWait o

def makeInstanceDetachNetworkInterfaceRequest (o : OpOutcome) : Except UErr Unit :=
  wrapThenWait o

/-- The two supported instance actions (instanceActionStop,
instanceActionStart). -/
inductive InstanceAction where
  | stop
  | start
  deriving DecidableEq, Repr

/-- makeInstanceActionRequest: a Stop or Start call wrapped and waited. -/
def makeInstanceActionRequest (a : InstanceAction) (o : OpOutcome) : Except UErr Unit :=
  match a with
  | InstanceAction.stop => wrapThenWait o
  | InstanceAction.start => wrapThenWait o

def makeDetachDiskRequest (o : OpOutcome) : Except UErr Unit := wrapThenWait o

def makeAttachDiskRequest (o : OpOutcome) : Except UErr Unit := wrapThenWait o

def makeDetachFilesystemRequest (o : OpOutcome) : Except UErr Unit := wrapThenWait o

def makeAttachFilesystemRequest (o : OpOutcome) : Except UErr Unit := wrapThenWait o

def makeInstanceMoveRequest (o : OpOutcome) : Except UErr Unit := wrapThenWait o

/-- resourceYandexComputeInstanceDelete: wrap, wait, then the
op.Response() check. -/
def resourceYandexComputeInstanceDelete (o : OpOutcome) : Except UErr Unit :=
  if !o.wrapOk then Except.error (UErr.sdkFail 0)
  else if !o.waitOk then Except.error (UErr.sdkFail 1)
  else if !o.responseOk then Except.error (UErr.sdkFail 2)
  else Except.ok ()

/-- The ARL profile Update call skeleton (after the request and mask are
built): wrap, then wait. -/
def arlProfileUpdateOp (o : OpOutcome) : Except UErr Unit := wrapThenWait o

/-- The ARL profile Delete call skeleton: wrap, then wait. -/
def arlProfileDeleteOp (o : OpOutcome) : Except UErr Unit := wrapThenWait o

/-- resourceYandexComputeInstanceCreate: the Create call is wrapped; the
instance ID from the operation metadata is stored with d.SetId BEFORE
op.Wait; then the wait and the op.Response() check.  The first component
is the local ID state at return. -/
def resourceYandexComputeInstanceCreate (o : OpOutcome) (mdInstanceId : String) :
    Option String × Except UErr Unit :=
  if !o.wrapOk then (none, Except.error (UErr.sdkFail 0))
  else if !o.metadataOk then (none, Except.error UErr.metadataErr)
  else
    if !o.waitOk then (some mdInstanceId, Except.error (UErr.sdkFail 1))
    else if !o.responseOk then (some mdInstanceId, Except.error (UErr.sdkFail 2))
    else (some mdInstanceId, Except.ok ())

/-- The ARL profile Create: wrap, metadata, d.SetId BEFORE op.Wait, then
the wait.  The first component is the local ID state at return. -/
def resourceYandexSmartwebsecurityAdvancedRateLimiterAdvancedRateLimiterProfileCreate
    (o : OpOutcome) (mdProfileId : String) : Option String × Except UErr Unit :=
  if !o.wrapOk then (none, Except.error (UErr.sdkFail 0))
  else if !o.metadataOk then (none, Except.error UErr.metadataErr)
  else
    if !o.waitOk then (some mdProfileId, Except.error (UErr.sdkFail 1))
    else (some mdProfileId, Except.ok ())

/-- C7: every mutating remote call helper of these resource modules
reports success exactly when the wrapped operation was obtained and the
op.Wait poll succeeded (Delete and the Creates additionally require the
response / metadata checks); no helper reports success without a
successful wait. -/
theorem mutating_calls_wrap_and_wait (o : OpOutcome) (a : InstanceAction) (id2 : String) :
    (makeInstanceUpdateRequest o = Except.ok () ↔ o.wrapOk = true ∧ o.waitOk = true) ∧
    (makeInstanceUpdateNetworkInterfaceRequest o = Except.ok () ↔
      o.wrapOk = true ∧ o.waitOk = true) ∧
    (makeInstanceAddOneToOneNatRequest o = Except.ok () ↔
      o.wrapOk = true ∧ o.waitOk = true) ∧
    (makeInstanceRemoveOneToOneNatRequest o = Except.ok () ↔
      o.wrapOk = true ∧ o.waitOk = true) ∧
    (makeInstanceAttachNetworkInterfaceRequest o = Except.ok () ↔
      o.wrapOk = true ∧ o.waitOk = true) ∧
    (makeInstanceDetachNetworkInterfaceRequest o = Except.ok () ↔
      o.wrapOk = true ∧ o.waitOk = true) ∧
    (makeInstanceActionRequest a o = Except.ok () ↔ o.wrapOk = true ∧ o.waitOk = true) ∧
    (makeDetachDiskRequest o = Except.ok () ↔ o.wrapOk = true ∧ o.waitOk = true) ∧
    (makeAttachDiskRequest o = Except.ok () ↔ o.wrapOk = true ∧ o.waitOk = true) ∧
    (makeDetachFilesystemRequest o = Except.ok () ↔ o.wrapOk = true ∧ o.waitOk = true) ∧
    (makeAttachFilesystemRequest o = Except.ok () ↔ o.wrapOk = true ∧ o.waitOk = true) ∧
    (makeInstanceMoveRequest o = Except.ok () ↔ o.wrapOk = true ∧ o.waitOk = true) ∧
    (resourceYandexComputeInstanceDelete o = Except.ok () ↔
      o.wrapOk = true ∧ o.waitOk = true ∧ o.responseOk = true) ∧
    (arlProfileUpdateOp o = Except.ok () ↔ o.wrapOk = true ∧ o.waitOk = true) ∧
    (arlProfileDeleteOp o = Except.ok () ↔ o.wrapOk = true ∧ o.waitOk = true) ∧
    ((resourceYandexComputeInstanceCreate o id2).2 = Except.ok () ↔
      o.wrapOk = true ∧ o.metadataOk = true ∧ o.waitOk = true ∧ o.responseOk = true) ∧
    ((resourceYandexSmartwebsecurityAdvancedRateLimiterAdvancedRateLimiterProfileCreate
        o id2).2 = Except.ok () ↔
      o.wrapOk = true ∧ o.metadataOk = true ∧ o.waitOk = true) := by
  rcases o with ⟨w, m, wt, r⟩
  cases a <;> cases w <;> cases m <;> cases wt <;> cases r <;>
    simp [makeInstanceUpdateRequest, makeInstanceUpdateNetworkInterfaceRequest,
      makeInstanceAddOneToOneNatRequest, makeInstanceRemoveOneToOneNatRequest,
      makeInstanceAttachNetworkInterfaceRequest, makeInstanceDetachNetworkInterfaceRequest,
      makeInstanceActionRequest, makeDetachDiskRequest, makeAttachDiskRequest,
      makeDetachFilesystemRequest, makeAttachFilesystemRequest, makeInstanceMoveRequest,
      resourceYandexComputeInstanceDelete, arlProfileUpdateOp, arlProfileDeleteOp,
      resourceYandexComputeInstanceCreate,
      resourceYandexSmartwebsecurityAdvancedRateLimiterAdvancedRateLimiterProfileCreate,
      wrapThenWait]

/-- C10: in both the compute instance Create and the ARL profile Create,
when the initial call and the metadata extraction succeed but op.Wait
fails, the function returns an error while the local ID state already
holds the remote resource ID taken from the create-operation metadata. -/
theorem create_sets_id_before_wait (o : OpOutcome) (id2 : String)
    (hw : o.wrapOk = true) (hm : o.metadataOk = true) (hwait : o.waitOk = false) :
    ((resourceYandexComputeInstanceCreate o id2).1 = some id2 ∧
      (resourceYandexComputeInstanceCreate o id2).2 = Except.error (UErr.sdkFail 1)) ∧
    ((resourceYandexSmartwebsecurityAdvancedRateLimiterAdvancedRateLimiterProfileCreate
        o id2).1 = some id2 ∧
      (resourceYandexSmartwebsecurityAdvancedRateLimiterAdvancedRateLimiterProfileCreate
        o id2).2 = Except.error (UErr.sdkFail 1)) := by
  simp [resourceYandexComputeInstanceCreate,
    resourceYandexSmartwebsecurityAdvancedRateLimiterAdvancedRateLimiterProfileCreate,
    hw, hm, hwait]

/-- Witness for C10 at a concrete outcome. -/
theorem create_sets_id_before_wait_witness :
    (resourceYandexComputeInstanceCreate
      { wrapOk := true, metadataOk := true, waitOk := false, responseOk := true }
      "fhm0000000000000000a").1 = some "fhm0000000000000000a" :=
  (create_sets_id_before_wait _ _ rfl rfl rfl).1.1

/-! ## Event predicates for the update-flow claims -/

/-- An update request populated for one of the stopped-instance
properties (resources, platform_id, network_acceleration_type,
scheduling_policy, placement_policy). -/
def isStopPropUpdate : Event → Bool
  | Event.update req =>
      req.resourcesSpec.isSome || req.platformId.isSome || req.networkSettings.isSome ||
      req.schedulingPolicy.isSome || req.placementPolicy.isSome
  | _ => false

/-- An event belonging to the stopped-instance choreography of d: the
combined update request, attach/detach interface requests, and the
NAT / interface-update requests when the interface change was flagged as
needing a stopped instance. -/
def stopPropEvent (d : ResourceData) : Event → Bool
  | Event.update req =>
      req.resourcesSpec.isSome || req.platformId.isSome || req.networkSettings.isSome ||
      req.schedulingPolicy.isSome || req.placementPolicy.isSome
  | Event.addNat _ => needUpdateInterfacesOnStoppedInstance d
  | Event.removeNat _ => needUpdateInterfacesOnStoppedInstance d
  | Event.updateIface _ => needUpdateInterfacesOnStoppedInstance d
  | Event.attachIface _ => true
  | Event.detachIface _ => true
  | _ => false

def isMoveEvent : Event → Bool
  | Event.move _ => true
  | _ => false

def isStopEvent : Event → Bool
  | Event.stop _ => true
  | _ => false

/-! ## Helper run lemmas -/

theorem ensure_ok (d : ResourceData) (props : List String)
    (hs : d.getBool "allow_stopping_for_update" = true) :
    ensureAllowStoppingForUpdate d props = mpure () := by
  simp [ensureAllowStoppingForUpdate, hs]

theorem ensure_err (d : ResourceData) (props : List String)
    (hs : d.getBool "allow_stopping_for_update" = false) :
    ensureAllowStoppingForUpdate d props = mfail (UErr.notAllowedStopping props) := by
  simp [ensureAllowStoppingForUpdate, hs]

theorem mseq_mpure_left (k : M Unit) : mseq (mpure ()) k = k := by
  funext n
  simp [mseq, mbind, mpure]

theorem mseq_mfail_left (k : M Unit) (e : UErr) (n : Nat) :
    mseq (mfail e) k n = ([], n, Except.error e) := by
  simp [mseq, mbind, mfail]

theorem call_ok (o : Oracle) (e : Event) (n : Nat) (h : o n = true) :
    call o e n = ([e], n + 1, Except.ok ()) := by
  simp [call, h]

/-- A sequencing headed by a call emits that call first, whatever the
outcome. -/
theorem mseq_call_cons (o : Oracle) (e : Event) (k : M Unit) (n : Nat) :
    ∃ t, (mseq (call o e) k n).1 = e :: t := by
  by_cases h : o n = true
  · have hh := mseq_tr_ok (call o e) k n (by simp [call, h])
    exact ⟨(k (n + 1)).1, by rw [hh.1]; simp [call]⟩
  · have hh := mseq_tr_err (call o e) k n (UErr.sdkFail n) (by simp [call, h])
    exact ⟨[], by rw [hh.1]; simp [call]⟩

theorem trAll_ensure (P : Event → Prop) (d : ResourceData) (props : List String) :
    TrAll P (ensureAllowStoppingForUpdate d props) := by
  unfold ensureAllowStoppingForUpdate
  by_cases h : d.getBool "allow_stopping_for_update" = true
  · simpa [h] using trAll_mpure P
  · simp only [h]
    simpa using trAll_mfail P (UErr.notAllowedStopping props)

/-! ## Per-block shape lemmas -/

theorem trAll_folderBlock (o : Oracle) (d : ResourceData) (status : InstanceStatus)
    (P : Event → Prop)
    (hstop : P (Event.stop d.id)) (hstart : P (Event.start d.id))
    (hmove : P (Event.move { instanceId := d.id,
                             destinationFolderId := d.getStr "folder_id" }))
    (hdel : P (Event.deleteInstance d.id)) (hcreate : P Event.createInstance) :
    TrAll P (folderBlock o d status) := by
  unfold folderBlock
  refine trAll_ite P _ _ _ ?_ (trAll_mpure P)
  refine trAll_ite P _ _ _ ?_ ?_
  · refine trAll_mseq P _ _ (trAll_ensure P d _) ?_
    refine trAll_mseq P _ _ (trAll_ite P _ _ _ (trAll_call P o _ hstop) (trAll_mpure P)) ?_
    exact trAll_mseq P _ _ (trAll_call P o _ hmove) (trAll_call P o _ hstart)
  · exact trAll_mseq P _ _ (trAll_call P o _ hdel) (trAll_call P o _ hcreate)

theorem trAll_labelsBlock (o : Oracle) (d : ResourceData) (P : Event → Prop)
    (h : d.hasChange "labels" = true → P (Event.update (labelsReq d))) :
    TrAll P (labelsBlock o d) := by
  unfold labelsBlock
  by_cases hc : d.hasChange "labels" = true
  · simpa [hc] using trAll_call P o _ (h hc)
  · simpa [hc] using trAll_mpure P

theorem trAll_metadataBlock (o : Oracle) (d : ResourceData) (P : Event → Prop)
    (h : d.hasChange "metadata" = true → P (Event.update (metadataReq d))) :
    TrAll P (metadataBlock o d) := by
  unfold metadataBlock
  by_cases hc : d.hasChange "metadata" = true
  · simpa [hc] using trAll_call P o _ (h hc)
  · simpa [hc] using trAll_mpure P

theorem trAll_metadataOptionsBlock (o : Oracle) (d : ResourceData) (P : Event → Prop)
    (h : d.hasChange "metadata_options" = true → P (Event.update (metadataOptionsReq d))) :
    TrAll P (metadataOptionsBlock o d) := by
  unfold metadataOptionsBlock
  by_cases hc : d.hasChange "metadata_options" = true
  · simpa [hc] using trAll_call P o _ (h hc)
  · simpa [hc] using trAll_mpure P

theorem trAll_nameBlock (o : Oracle) (d : ResourceData) (P : Event → Prop)
    (h : d.hasChange "name" = true → P (Event.update (nameReq d))) :
    TrAll P (nameBlock o d) := by
  unfold nameBlock
  by_cases hc : d.hasChange "name" = true
  · simpa [hc] using trAll_call P o _ (h hc)
  · simpa [hc] using trAll_mpure P

theorem trAll_descriptionBlock (o : Oracle) (d : ResourceData) (P : Event → Prop)
    (h : d.hasChange "description" = true → P (Event.update (descriptionReq d))) :
    TrAll P (descriptionBlock o d) := by
  unfold descriptionBlock
  by_cases hc : d.hasChange "description" = true
  · simpa [hc] using trAll_call P o _ (h hc)
  · simpa [hc] using trAll_mpure P

theorem trAll_serviceAccountBlock (o : Oracle) (d : ResourceData) (P : Event → Prop)
    (h : d.hasChange "service_account_id" = true → P (Event.update (serviceAccountReq d))) :
    TrAll P (serviceAccountBlock o d) := by
  unfold serviceAccountBlock
  by_cases hc : d.hasChange "service_account_id" = true
  · simpa [hc] using trAll_call P o _ (h hc)
  · simpa [hc] using trAll_mpure P

theorem trAll_maintenanceBlock (o : Oracle) (d : ResourceData) (P : Event → Prop)
    (h : ∀ mp, P (Event.update (maintenanceReq d mp))) :
    TrAll P (maintenanceBlock o d) := by
  unfold maintenanceBlock
  refine trAll_ite P _ _ _ ?_ (trAll_mpure P)
  rcases hx : (if d.hasChange "maintenance_policy" = true then expandMaintenancePolicy d
               else Except.ok MaintenancePolicy.unspecified) with e | mp
  · simp only [hx]
    exact trAll_mfail P e
  · simp only [hx]
    exact trAll_call P o _ (h mp)

theorem trAll_ifaceRunningBlock (o : Oracle) (d : ResourceData) (P : Event → Prop)
    (h : needUpdateInterfacesOnStoppedInstance d = false →
      (∀ r, P (Event.removeNat r)) ∧ (∀ r, P (Event.addNat r)) ∧
      (∀ r, P (Event.updateIface r))) :
    TrAll P (ifaceRunningBlock o d) := by
  unfold ifaceRunningBlock
  by_cases hn : needUpdateInterfacesOnStoppedInstance d = false
  · rcases h hn with ⟨h1, h2, h3⟩
    refine trAll_ite P _ _ _ ?_ (trAll_mpure P)
    refine trAll_mseq P _ _ (trAll_callEach P o _ _ (fun x _ => h1 x)) ?_
    exact trAll_mseq P _ _ (trAll_callEach P o _ _ (fun x _ => h2 x))
      (trAll_callEach P o _ _ (fun x _ => h3 x))
  · have hn2 : needUpdateInterfacesOnStoppedInstance d = true := by
      revert hn
      cases needUpdateInterfacesOnStoppedInstance d <;> simp
    simpa [hn2] using trAll_mpure P

theorem trAll_disksBlock (o : Oracle) (d : ResourceData) (P : Event → Prop)
    (h1 : ∀ r, P (Event.detachDisk r)) (h2 : ∀ r, P (Event.attachDisk r)) :
    TrAll P (disksBlock o d) := by
  unfold disksBlock
  refine trAll_ite P _ _ _ ?_ (trAll_mpure P)
  exact trAll_mseq P _ _ (trAll_callEach P o _ _ (fun x _ => h1 x))
    (trAll_callEach P o _ _ (fun x _ => h2 x))

theorem trAll_fsBlock (o : Oracle) (d : ResourceData) (P : Event → Prop)
    (h1 : ∀ r, P (Event.detachFs r)) (h2 : ∀ r, P (Event.attachFs r)) :
    TrAll P (fsBlock o d) := by
  unfold fsBlock
  refine trAll_ite P _ _ _ ?_ (trAll_mpure P)
  exact trAll_mseq P _ _ (trAll_callEach P o _ _ (fun x _ => h1 x))
    (trAll_callEach P o _ _ (fun x _ => h2 x))

theorem trAll_stoppedBlock (o : Oracle) (d : ResourceData) (P : Event → Prop)
    (hstop : P (Event.stop d.id)) (hstart : P (Event.start d.id))
    (hcomb : combinedNeeded d = true → P (Event.update (combinedReq d)))
    (hni : needUpdateInterfacesOnStoppedInstance d = true →
      (∀ r, P (Event.removeNat r)) ∧ (∀ r, P (Event.addNat r)) ∧
      (∀ r, P (Event.updateIface r)) ∧ (∀ r, P (Event.attachIface r)) ∧
      (∀ r, P (Event.detachIface r))) :
    TrAll P (stoppedBlock o d) := by
  unfold stoppedBlock
  refine trAll_ite P _ _ _ ?_ (trAll_mpure P)
  refine trAll_mseq P _ _ (trAll_ensure P d _) ?_
  refine trAll_mseq P _ _ (trAll_call P o _ hstop) ?_
  refine trAll_mseq P _ _ ?_ ?_
  · by_cases hc : combinedNeeded d = true
    · simpa [hc] using trAll_call P o _ (hcomb hc)
    · simpa [hc] using trAll_mpure P
  refine trAll_mseq P _ _ ?_ (trAll_call P o _ hstart)
  by_cases hn : needUpdateInterfacesOnStoppedInstance d = true
  · rcases hni hn with ⟨h1, h2, h3, h4, h5⟩
    simp only [hn, if_true]
    refine trAll_mseq P _ _ (trAll_callEach P o _ _ (fun x _ => h1 x)) ?_
    refine trAll_mseq P _ _ (trAll_callEach P o _ _ (fun x _ => h2 x)) ?_
    refine trAll_mseq P _ _ (trAll_callEach P o _ _ (fun x _ => h3 x)) ?_
    exact trAll_mseq P _ _ (trAll_callEach P o _ _ (fun x _ => h4 x))
      (trAll_callEach P o _ _ (fun x _ => h5 x))
  · simpa [hn] using trAll_mpure P

theorem trAll_preUpdateBlocks (o : Oracle) (d : ResourceData) (status : InstanceStatus)
    (P : Event → Prop)
    (hstop : P (Event.stop d.id)) (hstart : P (Event.start d.id))
    (hmove : P (Event.move { instanceId := d.id,
                             destinationFolderId := d.getStr "folder_id" }))
    (hdel : P (Event.deleteInstance d.id)) (hcreate : P Event.createInstance)
    (hlab : d.hasChange "labels" = true → P (Event.update (labelsReq d)))
    (hmd : d.hasChange "metadata" = true → P (Event.update (metadataReq d)))
    (hmo : d.hasChange "metadata_options" = true → P (Event.update (metadataOptionsReq d)))
    (hnm : d.hasChange "name" = true → P (Event.update (nameReq d)))
    (hds : d.hasChange "description" = true → P (Event.update (descriptionReq d)))
    (hsa : d.hasChange "service_account_id" = true →
      P (Event.update (serviceAccountReq d)))
    (hmt : ∀ mp, P (Event.update (maintenanceReq d mp)))
    (hni : needUpdateInterfacesOnStoppedInstance d = false →
      (∀ r, P (Event.removeNat r)) ∧ (∀ r, P (Event.addNat r)) ∧
      (∀ r, P (Event.updateIface r)))
    (hdk1 : ∀ r, P (Event.detachDisk r)) (hdk2 : ∀ r, P (Event.attachDisk r))
    (hfs1 : ∀ r, P (Event.detachFs r)) (hfs2 : ∀ r, P (Event.attachFs r)) :
    TrAll P (preUpdateBlocks o d status) := by
  unfold preUpdateBlocks postFolderBlocks
  refine trAll_mseq P _ _
    (trAll_folderBlock o d status P hstop hstart hmove hdel hcreate) ?_
  refine trAll_mseq P _ _ (trAll_labelsBlock o d P hlab) ?_
  refine trAll_mseq P _ _ (trAll_metadataBlock o d P hmd) ?_
  refine trAll_mseq P _ _ (trAll_metadataOptionsBlock o d P hmo) ?_
  refine trAll_mseq P _ _ (trAll_nameBlock o d P hnm) ?_
  refine trAll_mseq P _ _ (trAll_descriptionBlock o d P hds) ?_
  refine trAll_mseq P _ _ (trAll_serviceAccountBlock o d P hsa) ?_
  refine trAll_mseq P _ _ (trAll_maintenanceBlock o d P hmt) ?_
  refine trAll_mseq P _ _ (trAll_ifaceRunningBlock o d P hni) ?_
  exact trAll_mseq P _ _ (trAll_disksBlock o d P hdk1 hdk2) (trAll_fsBlock o d P hfs1 hfs2)

theorem trAll_update (o : Oracle) (d : ResourceData) (status : InstanceStatus)
    (P : Event → Prop) (hget : P (Event.getInstance d.id))
    (hpre : TrAll P (preUpdateBlocks o d status))
    (hstopped : TrAll P (stoppedBlock o d)) :
    TrAll P (resourceYandexComputeInstanceUpdate o d status) := by
  unfold resourceYandexComputeInstanceUpdate
  refine trAll_mseq P _ _ (trAll_call P o _ hget) ?_
  refine trAll_mseq P _ _ hpre ?_
  exact trAll_mseq P _ _ hstopped (trAll_call P o _ hget)

/-! ## Success and error characterizations of the blocks -/

theorem alwaysOk_ensure (d : ResourceData) (props : List String)
    (hs : d.getBool "allow_stopping_for_update" = true) :
    AlwaysOk (ensureAllowStoppingForUpdate d props) := by
  rw [ensure_ok d props hs]
  exact alwaysOk_mpure

theorem alwaysOk_folderBlock (o : Oracle) (d : ResourceData) (status : InstanceStatus)
    (ho : ∀ m, o m = true)
    (hfs : d.hasChange "folder_id" = true → d.getBool "allow_recreate" = false →
      d.getBool "allow_stopping_for_update" = true) :
    AlwaysOk (folderBlock o d status) := by
  unfold folderBlock
  by_cases hf : d.hasChange "folder_id" = true
  · by_cases hr : d.getBool "allow_recreate" = true
    · simp only [hf, hr, if_true, Bool.not_true]
      simpa using alwaysOk_mseq _ _ (alwaysOk_call o _ ho) (alwaysOk_call o _ ho)
    · have hr2 : d.getBool "allow_recreate" = false := by
        revert hr; cases d.getBool "allow_recreate" <;> simp
      simp only [hf, hr2, if_true, Bool.not_false]
      refine alwaysOk_mseq _ _ (alwaysOk_ensure d _ (hfs hf hr2)) ?_
      refine alwaysOk_mseq _ _
        (alwaysOk_ite _ _ _ (alwaysOk_call o _ ho) alwaysOk_mpure) ?_
      exact alwaysOk_mseq _ _ (alwaysOk_call o _ ho) (alwaysOk_call o _ ho)
  · simpa [hf] using alwaysOk_mpure

theorem alwaysOk_maintenanceBlock (o : Oracle) (d : ResourceData)
    (ho : ∀ m, o m = true) (hm : ∃ v, expandMaintenancePolicy d = Except.ok v) :
    AlwaysOk (maintenanceBlock o d) := by
  unfold maintenanceBlock
  refine alwaysOk_ite _ _ _ ?_ alwaysOk_mpure
  rcases hm with ⟨v, hv⟩
  by_cases hc : d.hasChange "maintenance_policy" = true
  · simp only [hc, if_true, hv]
    exact alwaysOk_call o _ ho
  · simp only [hc, if_false]
    exact alwaysOk_call o _ ho

theorem alwaysOk_preUpdateBlocks (o : Oracle) (d : ResourceData) (status : InstanceStatus)
    (ho : ∀ m, o m = true) (hm : ∃ v, expandMaintenancePolicy d = Except.ok v)
    (hfs : d.hasChange "folder_id" = true → d.getBool "allow_recreate" = false →
      d.getBool "allow_stopping_for_update" = true) :
    AlwaysOk (preUpdateBlocks o d status) := by
  unfold preUpdateBlocks postFolderBlocks
  refine alwaysOk_mseq _ _ (alwaysOk_folderBlock o d status ho hfs) ?_
  refine alwaysOk_mseq _ _
    (by unfold labelsBlock
        exact alwaysOk_ite _ _ _ (alwaysOk_call o _ ho) alwaysOk_mpure) ?_
  refine alwaysOk_mseq _ _
    (by unfold metadataBlock
        exact alwaysOk_ite _ _ _ (alwaysOk_call o _ ho) alwaysOk_mpure) ?_
  refine alwaysOk_mseq _ _
    (by unfold metadataOptionsBlock
        exact alwaysOk_ite _ _ _ (alwaysOk_call o _ ho) alwaysOk_mpure) ?_
  refine alwaysOk_mseq _ _
    (by unfold nameBlock
        exact alwaysOk_ite _ _ _ (alwaysOk_call o _ ho) alwaysOk_mpure) ?_
  refine alwaysOk_mseq _ _
    (by unfold descriptionBlock
        exact alwaysOk_ite _ _ _ (alwaysOk_call o _ ho) alwaysOk_mpure) ?_
  refine alwaysOk_mseq _ _
    (by unfold serviceAccountBlock
        exact alwaysOk_ite _ _ _ (alwaysOk_call o _ ho) alwaysOk_mpure) ?_
  refine alwaysOk_mseq _ _ (alwaysOk_maintenanceBlock o d ho hm) ?_
  refine alwaysOk_mseq _ _
    (by unfold ifaceRunningBlock
        refine alwaysOk_ite _ _ _ ?_ alwaysOk_mpure
        refine alwaysOk_mseq _ _ (alwaysOk_callEach o _ _ ho) ?_
        exact alwaysOk_mseq _ _ (alwaysOk_callEach o _ _ ho)
          (alwaysOk_callEach o _ _ ho)) ?_
  refine alwaysOk_mseq _ _
    (by unfold disksBlock
        refine alwaysOk_ite _ _ _ ?_ alwaysOk_mpure
        exact alwaysOk_mseq _ _ (alwaysOk_callEach o _ _ ho)
          (alwaysOk_callEach o _ _ ho)) ?_
  unfold fsBlock
  refine alwaysOk_ite _ _ _ ?_ alwaysOk_mpure
  exact alwaysOk_mseq _ _ (alwaysOk_callEach o _ _ ho) (alwaysOk_callEach o _ _ ho)

theorem folderBlock_err (o : Oracle) (d : ResourceData) (status : InstanceStatus)
    (hf : d.hasChange "folder_id" = true) (hr : d.getBool "allow_recreate" = false)
    (hs : d.getBool "allow_stopping_for_update" = false) (n : Nat) :
    folderBlock o d status n = ([], n, Except.error (UErr.notAllowedStopping ["folder_id"])) := by
  unfold folderBlock
  simp only [hf, hr, if_true, Bool.not_false]
  rw [ensure_err d _ hs]
  exact mseq_mfail_left _ _ n

theorem stoppedBlock_err (o : Oracle) (d : ResourceData)
    (h : stopNeeded d = true) (hs : d.getBool "allow_stopping_for_update" = false) (n : Nat) :
    stoppedBlock o d n = ([], n, Except.error (UErr.notAllowedStopping stopNeededProps)) := by
  unfold stoppedBlock
  simp only [h, if_true]
  rw [ensure_err d _ hs]
  exact mseq_mfail_left _ _ n

/-- stopPropEvent holds of the combined request whenever it is issued. -/
theorem stopProp_combinedReq (d : ResourceData) (h : combinedNeeded d = true) :
    stopPropEvent d (Event.update (combinedReq d)) = true := by
  simp only [combinedNeeded, Bool.or_eq_true] at h
  rcases h with ((((h | h) | h) | h) | h) <;>
    simp [stopPropEvent, combinedReq, h]

/-- Success-run characterization of the stopped block: the trace is the
Stop, then only stopped-choreography events, then the Start. -/
theorem stoppedBlock_tr_ok (o : Oracle) (d : ResourceData)
    (ho : ∀ m, o m = true) (hs : d.getBool "allow_stopping_for_update" = true)
    (h : stopNeeded d = true) (n : Nat) :
    ∃ mid, (stoppedBlock o d n).1 = Event.stop d.id :: (mid ++ [Event.start d.id]) ∧
      (stoppedBlock o d n).2.2 = Except.ok () ∧
      ∀ e ∈ mid, stopPropEvent d e = true := by
  unfold stoppedBlock
  simp only [h, if_true]
  rw [ensure_ok d _ hs, mseq_mpure_left]
  set midC : M Unit :=
    (if combinedNeeded d = true then call o (Event.update (combinedReq d)) else mpure ())
    with hmidC
  set midN : M Unit :=
    (if needUpdateInterfacesOnStoppedInstance d = true then
       mseq (callEach o Event.removeNat (effRemoveNat d))
         (mseq (callEach o Event.addNat (effAddNat d))
           (mseq (callEach o Event.updateIface (effUpdateIface d))
             (mseq (callEach o Event.attachIface (effAttachIface d))
               (callEach o Event.detachIface (effDetachIface d)))))
     else mpure ()) with hmidN
  have hCok : AlwaysOk midC := by
    rw [hmidC]
    exact alwaysOk_ite _ _ _ (alwaysOk_call o _ ho) alwaysOk_mpure
  have hNok : AlwaysOk midN := by
    rw [hmidN]
    refine alwaysOk_ite _ _ _ ?_ alwaysOk_mpure
    refine alwaysOk_mseq _ _ (alwaysOk_callEach o _ _ ho) ?_
    refine alwaysOk_mseq _ _ (alwaysOk_callEach o _ _ ho) ?_
    refine alwaysOk_mseq _ _ (alwaysOk_callEach o _ _ ho) ?_
    exact alwaysOk_mseq _ _ (alwaysOk_callEach o _ _ ho) (alwaysOk_callEach o _ _ ho)
  have hCtr : TrAll (fun e => stopPropEvent d e = true) midC := by
    rw [hmidC]
    refine trAll_ite_cond _ _ _ _ ?_ (fun _ => trAll_mpure _)
    intro hcn
    exact trAll_call _ o _ (stopProp_combinedReq d hcn)
  have hNtr : TrAll (fun e => stopPropEvent d e = true) midN := by
    rw [hmidN]
    refine trAll_ite_cond _ _ _ _ ?_ (fun _ => trAll_mpure _)
    intro hni
    refine trAll_mseq _ _ _ (trAll_callEach _ o _ _ (fun x _ => by simp [stopPropEvent, hni])) ?_
    refine trAll_mseq _ _ _ (trAll_callEach _ o _ _ (fun x _ => by simp [stopPropEvent, hni])) ?_
    refine trAll_mseq _ _ _ (trAll_callEach _ o _ _ (fun x _ => by simp [stopPropEvent, hni])) ?_
    exact trAll_mseq _ _ _ (trAll_callEach _ o _ _ (fun x _ => by simp [stopPropEvent]))
      (trAll_callEach _ o _ _ (fun x _ => by simp [stopPropEvent]))
  have hstopCall : (call o (Event.stop d.id) n).2.2 = Except.ok () := by
    simp [call, ho n]
  have h1 := mseq_tr_ok (call o (Event.stop d.id))
    (mseq midC (mseq midN (call o (Event.start d.id)))) n hstopCall
  set n1 := (call o (Event.stop d.id) n).2.1 with hn1
  have h2 := mseq_tr_ok midC (mseq midN (call o (Event.start d.id))) n1 (hCok n1)
  set n2 := (midC n1).2.1 with hn2
  have h3 := mseq_tr_ok midN (call o (Event.start d.id)) n2 (hNok n2)
  set n3 := (midN n2).2.1 with hn3
  refine ⟨(midC n1).1 ++ (midN n2).1, ?_, ?_, ?_⟩
  · rw [h1.1, h2.1, h3.1]
    simp [call]
  · rw [h1.2, h2.2, h3.2]
    simp [call, ho n3]
  · intro e he
    rcases List.mem_append.mp he with he2 | he2
    · exact hCtr n1 e he2
    · exact hNtr n2 e he2

/-- Trace of a sequencing always extends the trace of its first part. -/
theorem mseq_tr_extends (m k : M Unit) (n : Nat) :
    ∃ t, (mseq m k n).1 = (m n).1 ++ t := by
  cases hres : (m n).2.2 with
  | error e =>
      have := mseq_tr_err m k n e hres
      exact ⟨[], by rw [this.1]; simp⟩
  | ok a =>
      cases a
      have := mseq_tr_ok m k n hres
      exact ⟨(k (m n).2.1).1, this.1⟩

/-- Whenever it runs at all, the stopped block emits the Stop first. -/
theorem stoppedBlock_cons (o : Oracle) (d : ResourceData)
    (h : stopNeeded d = true) (hs : d.getBool "allow_stopping_for_update" = true) (n : Nat) :
    ∃ t3, (stoppedBlock o d n).1 = Event.stop d.id :: t3 := by
  unfold stoppedBlock
  simp only [h, if_true]
  rw [ensure_ok d _ hs, mseq_mpure_left]
  exact mseq_call_cons o _ _ n

/-- No event of the blocks before the stopped block belongs to the
stopped-instance choreography. -/
theorem trAll_pre_noStopProp (o : Oracle) (d : ResourceData) (status : InstanceStatus) :
    TrAll (fun e => stopPropEvent d e = false) (preUpdateBlocks o d status) := by
  refine trAll_preUpdateBlocks o d status _ ?_ ?_ ?_ ?_ ?_ ?_ ?_ ?_ ?_ ?_ ?_ ?_ ?_ ?_ ?_ ?_ ?_
  · simp [stopPropEvent]
  · simp [stopPropEvent]
  · simp [stopPropEvent]
  · simp [stopPropEvent]
  · simp [stopPropEvent]
  · intro _; simp [stopPropEvent, labelsReq]
  · intro _; simp [stopPropEvent, metadataReq]
  · intro _; simp [stopPropEvent, metadataOptionsReq]
  · intro _; simp [stopPropEvent, nameReq]
  · intro _; simp [stopPropEvent, descriptionReq]
  · intro _; simp [stopPropEvent, serviceAccountReq]
  · intro mp; simp [stopPropEvent, maintenanceReq]
  · intro hni
    refine ⟨fun r => ?_, fun r => ?_, fun r => ?_⟩ <;> simp [stopPropEvent, hni]
  · intro r; simp [stopPropEvent]
  · intro r; simp [stopPropEvent]
  · intro r; simp [stopPropEvent]
  · intro r; simp [stopPropEvent]

/-- C1: when a stopped-instance property changed (and stopping is
allowed), the update flow issues its requests for these properties only
between a Stop and a Start: (i) in every run, whatever the call
outcomes, no stopped-choreography request precedes the Stop of the
stopped block; (ii) in a run in which all remote calls succeed (and the
maintenance policy expands), the trace decomposes as a prefix without
stopped-choreography requests, the Stop, exactly the
stopped-choreography requests, the Start, and a suffix without such
requests. -/
theorem instanceUpdate_stop_update_start_order (d : ResourceData) (status : InstanceStatus)
    (h : stopNeeded d = true) (hs : d.getBool "allow_stopping_for_update" = true)
    (hm : ∃ v, expandMaintenancePolicy d = Except.ok v) :
    (∀ (o : Oracle) (n : Nat), ∃ t1 t2,
        runTr (resourceYandexComputeInstanceUpdate o d status) n = t1 ++ t2 ∧
        (∀ e ∈ t1, stopPropEvent d e = false) ∧
        (t2 = [] ∨ ∃ t3, t2 = Event.stop d.id :: t3)) ∧
    (∀ (o : Oracle) (n : Nat), (∀ m, o m = true) →
        ∃ pre mid post,
          runTr (resourceYandexComputeInstanceUpdate o d status) n =
            pre ++ Event.stop d.id :: (mid ++ Event.start d.id :: post) ∧
          (∀ e ∈ pre, stopPropEvent d e = false) ∧
          (∀ e ∈ mid, stopPropEvent d e = true) ∧
          (∀ e ∈ post, stopPropEvent d e = false)) := by
  constructor
  · intro o n
    unfold runTr resourceYandexComputeInstanceUpdate
    by_cases hon : o n = true
    · have hA := mseq_tr_ok (call o (Event.getInstance d.id))
        (mseq (preUpdateBlocks o d status)
          (mseq (stoppedBlock o d) (call o (Event.getInstance d.id)))) n
        (by simp [call, hon])
      rw [hA.1]
      simp only [call]
      cases hpre : (preUpdateBlocks o d status (n + 1)).2.2 with
      | error e =>
          have hB := mseq_tr_err (preUpdateBlocks o d status)
            (mseq (stoppedBlock o d) (call o (Event.getInstance d.id))) (n + 1) e hpre
          rw [hB.1]
          refine ⟨Event.getInstance d.id :: (preUpdateBlocks o d status (n + 1)).1, [], by simp, ?_, Or.inl rfl⟩
          intro e2 he2
          rcases List.mem_cons.mp he2 with rfl | he3
          · simp [stopPropEvent]
          · exact trAll_pre_noStopProp o d status (n + 1) e2 he3
      | ok a =>
          cases a
          have hB := mseq_tr_ok (preUpdateBlocks o d status)
            (mseq (stoppedBlock o d) (call o (Event.getInstance d.id))) (n + 1) hpre
          rw [hB.1]
          set n2 := (preUpdateBlocks o d status (n + 1)).2.1 with hn2
          rcases mseq_tr_extends (stoppedBlock o d) (call o (Event.getInstance d.id)) n2
            with ⟨text, hext⟩
          rcases stoppedBlock_cons o d h hs n2 with ⟨t3, ht3⟩
          refine ⟨Event.getInstance d.id :: (preUpdateBlocks o d status (n + 1)).1,
            (mseq (stoppedBlock o d) (call o (Event.getInstance d.id)) n2).1, by simp, ?_, ?_⟩
          · intro e2 he2
            rcases List.mem_cons.mp he2 with rfl | he3
            · simp [stopPropEvent]
            · exact trAll_pre_noStopProp o d status (n + 1) e2 he3
          · right
            exact ⟨t3 ++ text, by rw [hext, ht3]; simp⟩
    · have hA := mseq_tr_err (call o (Event.getInstance d.id))
        (mseq (preUpdateBlocks o d status)
          (mseq (stoppedBlock o d) (call o (Event.getInstance d.id)))) n
        (UErr.sdkFail n) (by simp [call, hon])
      rw [hA.1]
      refine ⟨[Event.getInstance d.id], [], by simp [call], ?_, Or.inl rfl⟩
      intro e2 he2
      simp [call] at he2
      subst he2
      simp [stopPropEvent]
  · intro o n ho
    unfold runTr resourceYandexComputeInstanceUpdate
    have hA := mseq_tr_ok (call o (Event.getInstance d.id))
      (mseq (preUpdateBlocks o d status)
        (mseq (stoppedBlock o d) (call o (Event.getInstance d.id)))) n
      (by simp [call, ho n])
    rw [hA.1]
    simp only [call]
    have hpreok := alwaysOk_preUpdateBlocks o d status ho hm (fun _ _ => hs)
    have hB := mseq_tr_ok (preUpdateBlocks o d status)
      (mseq (stoppedBlock o d) (call o (Event.getInstance d.id))) (n + 1) (hpreok (n + 1))
    rw [hB.1]
    set n2 := (preUpdateBlocks o d status (n + 1)).2.1 with hn2
    rcases stoppedBlock_tr_ok o d ho hs h n2 with ⟨mid, hmid1, hmid2, hmid3⟩
    have hC := mseq_tr_ok (stoppedBlock o d) (call o (Event.getInstance d.id)) n2 hmid2
    rw [hC.1, hmid1]
    refine ⟨Event.getInstance d.id :: (preUpdateBlocks o d status (n + 1)).1, mid,
      [Event.getInstance d.id], ?_, ?_, hmid3, ?_⟩
    · simp [call]
    · intro e2 he2
      rcases List.mem_cons.mp he2 with rfl | he3
      · simp [stopPropEvent]
      · exact trAll_pre_noStopProp o d status (n + 1) e2 he3
    · intro e2 he2
      simp at he2
      subst he2
      simp [stopPropEvent]

/-- Witness for C1: a concrete resource data whose resources changed,
with stopping allowed, run with the all-success oracle. -/
def dC1 : ResourceData :=
  { id := "inst1"
    hasChange := fun s => s = "resources"
    getStr := fun _ => ""
    getBool := fun s => s = "allow_stopping_for_update"
    getInt := fun _ => 0
    labelsVal := []
    metadataVal := []
    metadataOptionsVal := 0
    resourcesSpecVal := 1
    networkSettingsVal := 0
    schedulingPolicyVal := 0
    hostAffinityRulesVal := 0
    maintenanceGracePeriodVal := 0
    ifaceLensDiffer := false
    attachIfaceReqs := []
    detachIfaceReqs := []
    updateIfaceReqs := []
    updateIfaceNeedStop := false
    addNatReqs := []
    removeNatReqs := []
    detachDiskReqs := []
    attachDiskReqs := []
    detachFsReqs := []
    attachFsReqs := [] }

theorem instanceUpdate_stop_update_start_order_witness :
    ∃ pre mid post,
      runTr (resourceYandexComputeInstanceUpdate (fun _ => true) dC1
        InstanceStatus.running) 0 =
        pre ++ Event.stop dC1.id :: (mid ++ Event.start dC1.id :: post) ∧
      (∀ e ∈ pre, stopPropEvent dC1 e = false) ∧
      (∀ e ∈ mid, stopPropEvent dC1 e = true) ∧
      (∀ e ∈ post, stopPropEvent dC1 e = false) :=
  (instanceUpdate_stop_update_start_order dC1 InstanceStatus.running (by decide)
    (by decide) ⟨MaintenancePolicy.unspecified, rfl⟩).2 (fun _ => true) 0
    (fun _ => rfl)

/-- When stopping is not allowed, the folder block never gets past its
guard, so it emits at most the delete/create pair (allow_recreate). -/
theorem trAll_folderBlock_noStopping (o : Oracle) (d : ResourceData)
    (status : InstanceStatus) (P : Event → Prop)
    (hns : d.getBool "allow_stopping_for_update" = false)
    (hdel : P (Event.deleteInstance d.id)) (hcreate : P Event.createInstance) :
    TrAll P (folderBlock o d status) := by
  intro n e he
  by_cases hf : d.hasChange "folder_id" = true
  · by_cases hr : d.getBool "allow_recreate" = true
    · unfold folderBlock at he
      simp only [hf, hr, if_true, Bool.not_true, Bool.false_eq_true, if_false] at he
      exact trAll_mseq P _ _ (trAll_call P o _ hdel) (trAll_call P o _ hcreate) n e he
    · have hr2 : d.getBool "allow_recreate" = false := by
        revert hr; cases d.getBool "allow_recreate" <;> simp
      rw [folderBlock_err o d status hf hr2 hns n] at he
      simp at he
  · unfold folderBlock at he
    simp [hf, mpure] at he

/-- When stopping is not allowed, the stopped block emits nothing. -/
theorem trAll_stoppedBlock_noStopping (o : Oracle) (d : ResourceData) (P : Event → Prop)
    (hns : d.getBool "allow_stopping_for_update" = false) :
    TrAll P (stoppedBlock o d) := by
  intro n e he
  by_cases h : stopNeeded d = true
  · rw [stoppedBlock_err o d h hns n] at he
    simp at he
  · unfold stoppedBlock at he
    simp [h, mpure] at he

/-- C2: when a change requires stopping the instance (a folder_id change
with allow_recreate false, or a stopped-instance property change) and
allow_stopping_for_update is false, the update flow returns an error and
issues no Stop, no Move, and no update request populated for the
stopped-instance properties, in every run; when all remote calls succeed
the returned error is exactly the allow-stopping guard error naming the
offending properties. -/
theorem instanceUpdate_allowStopping_guard (d : ResourceData) (status : InstanceStatus)
    (hns : d.getBool "allow_stopping_for_update" = false)
    (hcase : (d.hasChange "folder_id" = true ∧ d.getBool "allow_recreate" = false) ∨
      stopNeeded d = true) :
    (∀ (o : Oracle) (n : Nat),
        (∃ e, runRes (resourceYandexComputeInstanceUpdate o d status) n =
          Except.error e) ∧
        (∀ ev ∈ runTr (resourceYandexComputeInstanceUpdate o d status) n,
          isStopEvent ev = false ∧ isMoveEvent ev = false ∧
          isStopPropUpdate ev = false)) ∧
    (∀ (o : Oracle) (n : Nat), (∀ m, o m = true) →
        (∃ v, expandMaintenancePolicy d = Except.ok v) →
        runRes (resourceYandexComputeInstanceUpdate o d status) n =
          Except.error (UErr.notAllowedStopping
            (if d.hasChange "folder_id" && !d.getBool "allow_recreate" then ["folder_id"]
             else stopNeededProps))) := by
  constructor
  · intro o n
    constructor
    · -- an error is always returned
      have hnotok : runRes (resourceYandexComputeInstanceUpdate o d status) n ≠
          Except.ok () := by
        intro hok
        unfold runRes resourceYandexComputeInstanceUpdate at hok
        have h1 := (mseq_ok_iff _ _ n).mp hok
        have h2 := (mseq_ok_iff _ _ _).mp h1.2
        have h3 := (mseq_ok_iff _ _ _).mp h2.2
        rcases hcase with ⟨hf, hr⟩ | hsn
        · -- the folder block errors
          unfold preUpdateBlocks at h2
          have h4 := (mseq_ok_iff _ _ _).mp h2.1
          rw [(folderBlock_err o d status hf hr hns _ :
            folderBlock o d status ((call o (Event.getInstance d.id) n).2.1) = _)] at h4
          simp at h4
        · -- the stopped block errors
          rw [stoppedBlock_err o d hsn hns _] at h3
          simp at h3
      cases hres : runRes (resourceYandexComputeInstanceUpdate o d status) n with
      | error e => exact ⟨e, rfl⟩
      | ok a => cases a; exact absurd hres hnotok
    · -- no Stop, Move, or stopped-property update in the trace
      have hall : TrAll (fun ev => isStopEvent ev = false ∧ isMoveEvent ev = false ∧
          isStopPropUpdate ev = false) (resourceYandexComputeInstanceUpdate o d status) := by
        refine trAll_update o d status _ (by simp [isStopEvent, isMoveEvent, isStopPropUpdate]) ?_
          (trAll_stoppedBlock_noStopping o d _ hns)
        unfold preUpdateBlocks postFolderBlocks
        refine trAll_mseq _ _ _
          (trAll_folderBlock_noStopping o d status _ hns
            (by simp [isStopEvent, isMoveEvent, isStopPropUpdate])
            (by simp [isStopEvent, isMoveEvent, isStopPropUpdate])) ?_
        refine trAll_mseq _ _ _ (trAll_labelsBlock o d _
          (fun _ => by simp [isStopEvent, isMoveEvent, isStopPropUpdate, labelsReq])) ?_
        refine trAll_mseq _ _ _ (trAll_metadataBlock o d _
          (fun _ => by simp [isStopEvent, isMoveEvent, isStopPropUpdate, metadataReq])) ?_
        refine trAll_mseq _ _ _ (trAll_metadataOptionsBlock o d _
          (fun _ => by simp [isStopEvent, isMoveEvent, isStopPropUpdate, metadataOptionsReq])) ?_
        refine trAll_mseq _ _ _ (trAll_nameBlock o d _
          (fun _ => by simp [isStopEvent, isMoveEvent, isStopPropUpdate, nameReq])) ?_
        refine trAll_mseq _ _ _ (trAll_descriptionBlock o d _
          (fun _ => by simp [isStopEvent, isMoveEvent, isStopPropUpdate, descriptionReq])) ?_
        refine trAll_mseq _ _ _ (trAll_serviceAccountBlock o d _
          (fun _ => by simp [isStopEvent, isMoveEvent, isStopPropUpdate, serviceAccountReq])) ?_
        refine trAll_mseq _ _ _ (trAll_maintenanceBlock o d _
          (fun mp => by simp [isStopEvent, isMoveEvent, isStopPropUpdate, maintenanceReq])) ?_
        refine trAll_mseq _ _ _ (trAll_ifaceRunningBlock o d _
          (fun _ => ⟨fun r => by simp [isStopEvent, isMoveEvent, isStopPropUpdate],
                     fun r => by simp [isStopEvent, isMoveEvent, isStopPropUpdate],
                     fun r => by simp [isStopEvent, isMoveEvent, isStopPropUpdate]⟩)) ?_
        exact trAll_mseq _ _ _
          (trAll_disksBlock o d _
            (fun r => by simp [isStopEvent, isMoveEvent, isStopPropUpdate])
            (fun r => by simp [isStopEvent, isMoveEvent, isStopPropUpdate]))
          (trAll_fsBlock o d _
            (fun r => by simp [isStopEvent, isMoveEvent, isStopPropUpdate])
            (fun r => by simp [isStopEvent, isMoveEvent, isStopPropUpdate]))
      exact fun ev hev => hall n ev hev
  · intro o n ho hm
    unfold runRes resourceYandexComputeInstanceUpdate
    have hAres : (call o (Event.getInstance d.id) n).2.2 = Except.ok () := by
      simp [call, ho n]
    by_cases hf : d.hasChange "folder_id" = true ∧ d.getBool "allow_recreate" = false
    · -- the folder guard fires first
      have hcond : (d.hasChange "folder_id" && !d.getBool "allow_recreate") = true := by
        simp [hf.1, hf.2]
      rw [hcond]
      set n1 := (call o (Event.getInstance d.id) n).2.1 with hn1
      have hfold := folderBlock_err o d status hf.1 hf.2 hns n1
      have hpre : (preUpdateBlocks o d status n1).2.2 =
          Except.error (UErr.notAllowedStopping ["folder_id"]) := by
        unfold preUpdateBlocks
        exact (mseq_tr_err _ _ n1 _ (by rw [hfold])).2
      have h5 := (mseq_tr_err (preUpdateBlocks o d status)
        (mseq (stoppedBlock o d) (call o (Event.getInstance d.id))) n1 _ hpre).2
      rw [(mseq_tr_ok _ _ n hAres).2]
      simpa using h5
    · -- the stopped-block guard fires
      have hsn : stopNeeded d = true := by
        rcases hcase with hc | hc
        · exact absurd hc hf
        · exact hc
      have hcond : (d.hasChange "folder_id" && !d.getBool "allow_recreate") = false := by
        rcases hh : d.hasChange "folder_id" <;> rcases hrr : d.getBool "allow_recreate" <;>
          simp_all
      rw [hcond]
      set n1 := (call o (Event.getInstance d.id) n).2.1 with hn1
      have hpreok := alwaysOk_preUpdateBlocks o d status ho hm
        (fun hcf hcr => absurd ⟨hcf, hcr⟩ hf)
      set n2 := (preUpdateBlocks o d status n1).2.1 with hn2
      have hstp := stoppedBlock_err o d hsn hns n2
      have h5 := (mseq_tr_err (stoppedBlock o d) (call o (Event.getInstance d.id)) n2 _
        (by rw [hstp])).2
      rw [(mseq_tr_ok _ _ n hAres).2, (mseq_tr_ok _ _ n1 (hpreok n1)).2]
      simpa using h5

/-- Concrete resource data for the C2 witness: resources changed,
stopping not allowed. -/
def dC2 : ResourceData :=
  { dC1 with getBool := fun _ => false }

theorem instanceUpdate_allowStopping_guard_witness :
    runRes (resourceYandexComputeInstanceUpdate (fun _ => true) dC2
      InstanceStatus.running) 0 =
      Except.error (UErr.notAllowedStopping stopNeededProps) :=
  (instanceUpdate_allowStopping_guard dC2 InstanceStatus.running rfl
    (Or.inr (by decide))).2 (fun _ => true) 0 (fun _ => rfl)
    ⟨MaintenancePolicy.unspecified, rfl⟩

/-! ## Counting events in traces -/

/-- The computation emits at most c events satisfying p, in every run. -/
def CountLe (p : Event → Bool) (m : M Unit) (c : Nat) : Prop :=
  ∀ n, ((m n).1.countP p) ≤ c

theorem countLe_mpure (p : Event → Bool) : CountLe p (mpure ()) 0 := by
  intro n; simp [mpure]

theorem countLe_call (p : Event → Bool) (o : Oracle) (e : Event) :
    CountLe p (call o e) 1 := by
  intro n
  cases hp : p e <;> simp [call, List.countP, List.countP.go, hp]

theorem countLe_of_trAll (p : Event → Bool) (m : M Unit)
    (h : TrAll (fun e => p e = false) m) : CountLe p m 0 := by
  intro n
  have : ∀ e ∈ (m n).1, ¬(p e = true) := by
    intro e he
    simp [h n e he]
  simp [List.countP_eq_zero.mpr this]

theorem countLe_mseq (p : Event → Bool) (m k : M Unit) (a b : Nat)
    (h1 : CountLe p m a) (h2 : CountLe p k b) : CountLe p (mseq m k) (a + b) := by
  intro n
  cases hres : (m n).2.2 with
  | error e =>
      rw [(mseq_tr_err m k n e hres).1]
      exact le_trans (h1 n) (Nat.le_add_right a b)
  | ok u =>
      cases u
      rw [(mseq_tr_ok m k n hres).1, List.countP_append]
      exact Nat.add_le_add (h1 n) (h2 ((m n).2.1))

theorem countLe_ite (p : Event → Bool) (c : Prop) [Decidable c] (m k : M Unit) (a : Nat)
    (h1 : CountLe p m a) (h2 : CountLe p k a) : CountLe p (if c then m else k) a := by
  by_cases h : c <;> simp [h, h1, h2]

theorem countLe_mono (p : Event → Bool) (m : M Unit) (a b : Nat)
    (h : CountLe p m a) (hab : a ≤ b) : CountLe p m b :=
  fun n => le_trans (h n) hab

theorem countLe_ensure (p : Event → Bool) (d : ResourceData) (props : List String) :
    CountLe p (ensureAllowStoppingForUpdate d props) 0 := by
  intro n
  unfold ensureAllowStoppingForUpdate
  by_cases h : d.getBool "allow_stopping_for_update" = true <;> simp [h, mpure, mfail]

/-- The folder block issues at most one Move call. -/
theorem countLe_folderBlock_move (o : Oracle) (d : ResourceData) (status : InstanceStatus) :
    CountLe isMoveEvent (folderBlock o d status) 1 := by
  unfold folderBlock
  refine countLe_ite _ _ _ _ _ ?_ (countLe_mono _ _ 0 1 (countLe_mpure _) (by omega))
  refine countLe_ite _ _ _ _ _ ?_ ?_
  · have hmain : CountLe isMoveEvent
        (mseq (if status ≠ InstanceStatus.stopped then call o (Event.stop d.id) else mpure ())
          (mseq (call o (Event.move { instanceId := d.id,
                                      destinationFolderId := d.getStr "folder_id" }))
            (call o (Event.start d.id)))) 1 := by
      have h1 : CountLe isMoveEvent
          (if status ≠ InstanceStatus.stopped then call o (Event.stop d.id)
           else mpure ()) 0 := by
        refine countLe_ite _ _ _ _ _ ?_ (countLe_mpure _)
        exact countLe_of_trAll _ _ (trAll_call _ o (Event.stop d.id) (by simp [isMoveEvent]))
      have h2 : CountLe isMoveEvent
          (mseq (call o (Event.move { instanceId := d.id,
                                      destinationFolderId := d.getStr "folder_id" }))
            (call o (Event.start d.id))) 1 := by
        have hb : CountLe isMoveEvent (call o (Event.start d.id)) 0 :=
          countLe_of_trAll _ _ (trAll_call _ o (Event.start d.id) (by simp [isMoveEvent]))
        have := countLe_mseq isMoveEvent _ _ 1 0
          (countLe_call isMoveEvent o
            (Event.move { instanceId := d.id,
                          destinationFolderId := d.getStr "folder_id" })) hb
        simpa using this
      simpa using countLe_mseq isMoveEvent _ _ 0 1 h1 h2
    simpa using countLe_mseq isMoveEvent _ _ 0 1 (countLe_ensure _ d _) hmain
  · refine countLe_mono _ _ 0 1 ?_ (by omega)
    refine countLe_of_trAll _ _ ?_
    exact trAll_mseq _ _ _ (trAll_call _ o (Event.deleteInstance d.id) (by simp [isMoveEvent]))
      (trAll_call _ o Event.createInstance (by simp [isMoveEvent]))

/-- No block other than the folder block issues a Move call. -/
theorem trAll_afterFolder_noMove (o : Oracle) (d : ResourceData) :
    TrAll (fun e => isMoveEvent e = false) (postFolderBlocks o d) := by
  unfold postFolderBlocks
  refine trAll_mseq _ _ _ (trAll_labelsBlock o d _ (fun _ => by simp [isMoveEvent])) ?_
  refine trAll_mseq _ _ _ (trAll_metadataBlock o d _ (fun _ => by simp [isMoveEvent])) ?_
  refine trAll_mseq _ _ _ (trAll_metadataOptionsBlock o d _ (fun _ => by simp [isMoveEvent])) ?_
  refine trAll_mseq _ _ _ (trAll_nameBlock o d _ (fun _ => by simp [isMoveEvent])) ?_
  refine trAll_mseq _ _ _ (trAll_descriptionBlock o d _ (fun _ => by simp [isMoveEvent])) ?_
  refine trAll_mseq _ _ _ (trAll_serviceAccountBlock o d _ (fun _ => by simp [isMoveEvent])) ?_
  refine trAll_mseq _ _ _ (trAll_maintenanceBlock o d _ (fun _ => by simp [isMoveEvent])) ?_
  refine trAll_mseq _ _ _ (trAll_ifaceRunningBlock o d _
    (fun _ => ⟨fun r => by simp [isMoveEvent], fun r => by simp [isMoveEvent],
               fun r => by simp [isMoveEvent]⟩)) ?_
  exact trAll_mseq _ _ _
    (trAll_disksBlock o d _ (fun r => by simp [isMoveEvent]) (fun r => by simp [isMoveEvent]))
    (trAll_fsBlock o d _ (fun r => by simp [isMoveEvent]) (fun r => by simp [isMoveEvent]))

theorem trAll_stoppedBlock_noMove (o : Oracle) (d : ResourceData) :
    TrAll (fun e => isMoveEvent e = false) (stoppedBlock o d) := by
  refine trAll_stoppedBlock o d _ (by simp [isMoveEvent]) (by simp [isMoveEvent])
    (fun _ => by simp [isMoveEvent]) ?_
  intro _
  exact ⟨fun r => by simp [isMoveEvent], fun r => by simp [isMoveEvent],
    fun r => by simp [isMoveEvent], fun r => by simp [isMoveEvent],
    fun r => by simp [isMoveEvent]⟩

/-- The whole update flow issues at most one Move call. -/
theorem countLe_update_move (o : Oracle) (d : ResourceData) (status : InstanceStatus) :
    CountLe isMoveEvent (resourceYandexComputeInstanceUpdate o d status) 1 := by
  unfold resourceYandexComputeInstanceUpdate preUpdateBlocks
  have hget : CountLe isMoveEvent (call o (Event.getInstance d.id)) 0 :=
    countLe_of_trAll _ _ (trAll_call _ o (Event.getInstance d.id) (by simp [isMoveEvent]))
  have hpre : CountLe isMoveEvent
      (mseq (folderBlock o d status) (postFolderBlocks o d)) 1 := by
    have := countLe_mseq isMoveEvent _ _ 1 0 (countLe_folderBlock_move o d status)
      (countLe_of_trAll _ _ (trAll_afterFolder_noMove o d))
    simpa using this
  have hrest : CountLe isMoveEvent
      (mseq (stoppedBlock o d) (call o (Event.getInstance d.id))) 0 := by
    have := countLe_mseq isMoveEvent _ _ 0 0
      (countLe_of_trAll _ _ (trAll_stoppedBlock_noMove o d)) hget
    simpa using this
  have h2 := countLe_mseq isMoveEvent _ _ 1 0 hpre hrest
  have h3 := countLe_mseq isMoveEvent _ _ 0 1 hget (by simpa using h2)
  simpa using h3

/-- Success-run trace of the folder block in the move case: Stop only
when the instance is not already stopped, then the Move, then Start. -/
theorem folderBlock_tr_moveCase (o : Oracle) (d : ResourceData) (status : InstanceStatus)
    (hf : d.hasChange "folder_id" = true) (hr : d.getBool "allow_recreate" = false)
    (hs : d.getBool "allow_stopping_for_update" = true) (ho : ∀ m, o m = true) (n : Nat) :
    (folderBlock o d status n).1 =
      (if status ≠ InstanceStatus.stopped then [Event.stop d.id] else []) ++
      [Event.move { instanceId := d.id, destinationFolderId := d.getStr "folder_id" },
       Event.start d.id] ∧
    (folderBlock o d status n).2.2 = Except.ok () := by
  unfold folderBlock
  simp only [hf, hr, if_true, Bool.not_false]
  rw [ensure_ok d _ hs, mseq_mpure_left]
  by_cases hst : status ≠ InstanceStatus.stopped
  · simp [hst, mseq, mbind, call, ho]
  · simp [hst, mseq, mbind, call, mpure, ho]

/-- Success-run trace of the folder block in the allow_recreate case:
the delete followed by the create, and no Move. -/
theorem folderBlock_tr_recreate (o : Oracle) (d : ResourceData) (status : InstanceStatus)
    (hf : d.hasChange "folder_id" = true) (hr : d.getBool "allow_recreate" = true)
    (ho : ∀ m, o m = true) (n : Nat) :
    (folderBlock o d status n).1 = [Event.deleteInstance d.id, Event.createInstance] ∧
    (folderBlock o d status n).2.2 = Except.ok () := by
  unfold folderBlock
  simp [hf, hr, mseq, mbind, call, ho]

/-- When allow_recreate is set, the folder block issues no Move. -/
theorem trAll_folderBlock_recreate_noMove (o : Oracle) (d : ResourceData)
    (status : InstanceStatus) (hr : d.getBool "allow_recreate" = true) :
    TrAll (fun e => isMoveEvent e = false) (folderBlock o d status) := by
  intro n e he
  unfold folderBlock at he
  by_cases hf : d.hasChange "folder_id" = true
  · simp only [hf, hr, if_true, Bool.not_true, Bool.false_eq_true, if_false] at he
    exact trAll_mseq (fun e2 => isMoveEvent e2 = false) _ _
      (trAll_call _ o (Event.deleteInstance d.id) rfl)
      (trAll_call _ o Event.createInstance rfl) n e he
  · simp [hf, mpure] at he

/-- C4: handling of a folder_id change.  Every Move the update flow ever
issues targets the new folder_id, and at most one Move is issued per
run.  With allow_recreate set, no Move is issued at all and a successful
run deletes and recreates the instance right after the initial Get.
Without allow_recreate (stopping allowed), a successful run stops the
instance only when its remote status is not already STOPPED, then issues
exactly one Move with DestinationFolderId the new folder_id, then starts
the instance. -/
theorem instanceUpdate_folder_move (d : ResourceData) (status : InstanceStatus)
    (hf : d.hasChange "folder_id" = true) :
    (∀ (o : Oracle) (n : Nat),
        ∀ ev ∈ runTr (resourceYandexComputeInstanceUpdate o d status) n, ∀ rq,
          ev = Event.move rq →
          rq = { instanceId := d.id, destinationFolderId := d.getStr "folder_id" }) ∧
    (∀ (o : Oracle) (n : Nat),
        (runTr (resourceYandexComputeInstanceUpdate o d status) n).countP isMoveEvent ≤ 1) ∧
    (d.getBool "allow_recreate" = true →
        (∀ (o : Oracle) (n : Nat),
          ∀ ev ∈ runTr (resourceYandexComputeInstanceUpdate o d status) n,
            isMoveEvent ev = false) ∧
        (∀ (o : Oracle) (n : Nat), (∀ m, o m = true) →
          ∃ rest, runTr (resourceYandexComputeInstanceUpdate o d status) n =
            Event.getInstance d.id :: Event.deleteInstance d.id ::
              Event.createInstance :: rest)) ∧
    (d.getBool "allow_recreate" = false →
        d.getBool "allow_stopping_for_update" = true →
        ∀ (o : Oracle) (n : Nat), (∀ m, o m = true) →
          ∃ rest,
            runTr (resourceYandexComputeInstanceUpdate o d status) n =
              Event.getInstance d.id ::
                ((if status ≠ InstanceStatus.stopped then [Event.stop d.id] else []) ++
                 Event.move { instanceId := d.id,
                              destinationFolderId := d.getStr "folder_id" } ::
                 Event.start d.id :: rest) ∧
            (runTr (resourceYandexComputeInstanceUpdate o d status) n).countP
              isMoveEvent = 1) := by
  refine ⟨?_, ?_, ?_, ?_⟩
  · -- every Move targets the new folder
    intro o n
    have hall : TrAll (fun ev => ∀ rq, ev = Event.move rq →
        rq = { instanceId := d.id, destinationFolderId := d.getStr "folder_id" })
        (resourceYandexComputeInstanceUpdate o d status) := by
      refine trAll_update o d status _ (by intro rq h; simp at h) ?_ ?_
      · refine trAll_preUpdateBlocks o d status _
          (by intro rq h; simp at h) (by intro rq h; simp at h)
          (by intro rq h; injection h with h2; exact h2.symm)
          (by intro rq h; simp at h) (by intro rq h; simp at h)
          (fun _ => by intro rq h; simp at h) (fun _ => by intro rq h; simp at h)
          (fun _ => by intro rq h; simp at h) (fun _ => by intro rq h; simp at h)
          (fun _ => by intro rq h; simp at h) (fun _ => by intro rq h; simp at h)
          (fun mp => by intro rq h; simp at h) ?_
          (fun r => by intro rq h; simp at h) (fun r => by intro rq h; simp at h)
          (fun r => by intro rq h; simp at h) (fun r => by intro rq h; simp at h)
        intro _
        exact ⟨fun r => by intro rq h; simp at h, fun r => by intro rq h; simp at h,
          fun r => by intro rq h; simp at h⟩
      · refine trAll_stoppedBlock o d _ (by intro rq h; simp at h) (by intro rq h; simp at h)
          (fun _ => by intro rq h; simp at h) ?_
        intro _
        exact ⟨fun r => by intro rq h; simp at h, fun r => by intro rq h; simp at h,
          fun r => by intro rq h; simp at h, fun r => by intro rq h; simp at h,
          fun r => by intro rq h; simp at h⟩
    exact fun ev hev => hall n ev hev
  · -- at most one Move per run
    intro o n
    exact countLe_update_move o d status n
  · -- allow_recreate: no Move at all; delete then create on success
    intro hr
    constructor
    · intro o n
      have hall : TrAll (fun ev => isMoveEvent ev = false)
          (resourceYandexComputeInstanceUpdate o d status) := by
        refine trAll_update o d status _ (by simp [isMoveEvent]) ?_
          (trAll_stoppedBlock_noMove o d)
        unfold preUpdateBlocks
        exact trAll_mseq _ _ _ (trAll_folderBlock_recreate_noMove o d status hr)
          (trAll_afterFolder_noMove o d)
      exact fun ev hev => hall n ev hev
    · intro o n ho
      unfold runTr resourceYandexComputeInstanceUpdate
      have hA := mseq_tr_ok (call o (Event.getInstance d.id))
        (mseq (preUpdateBlocks o d status)
          (mseq (stoppedBlock o d) (call o (Event.getInstance d.id)))) n
        (by simp [call, ho n])
      rw [hA.1]
      set n1 := (call o (Event.getInstance d.id) n).2.1 with hn1
      unfold preUpdateBlocks
      rcases mseq_tr_extends (mseq (folderBlock o d status) (postFolderBlocks o d))
        (mseq (stoppedBlock o d) (call o (Event.getInstance d.id))) n1 with ⟨t, ht⟩
      rw [ht]
      have hfold := folderBlock_tr_recreate o d status hf hr ho n1
      have hB := mseq_tr_ok (folderBlock o d status) (postFolderBlocks o d) n1 hfold.2
      rw [hB.1, hfold.1]
      refine ⟨(postFolderBlocks o d (folderBlock o d status n1).2.1).1 ++ t, ?_⟩
      simp [call]
  · -- move case: Stop (only if not stopped), Move, Start
    intro hr hs o n ho
    have hdecomp : ∃ rest,
        runTr (resourceYandexComputeInstanceUpdate o d status) n =
          Event.getInstance d.id ::
            ((if status ≠ InstanceStatus.stopped then [Event.stop d.id] else []) ++
             Event.move { instanceId := d.id,
                          destinationFolderId := d.getStr "folder_id" } ::
             Event.start d.id :: rest) := by
      unfold runTr resourceYandexComputeInstanceUpdate
      have hA := mseq_tr_ok (call o (Event.getInstance d.id))
        (mseq (preUpdateBlocks o d status)
          (mseq (stoppedBlock o d) (call o (Event.getInstance d.id)))) n
        (by simp [call, ho n])
      rw [hA.1]
      set n1 := (call o (Event.getInstance d.id) n).2.1 with hn1
      unfold preUpdateBlocks
      rcases mseq_tr_extends (mseq (folderBlock o d status) (postFolderBlocks o d))
        (mseq (stoppedBlock o d) (call o (Event.getInstance d.id))) n1 with ⟨t, ht⟩
      rw [ht]
      have hfold := folderBlock_tr_moveCase o d status hf hr hs ho n1
      have hB := mseq_tr_ok (folderBlock o d status) (postFolderBlocks o d) n1 hfold.2
      rw [hB.1, hfold.1]
      refine ⟨(postFolderBlocks o d (folderBlock o d status n1).2.1).1 ++ t, ?_⟩
      simp [call]
    rcases hdecomp with ⟨rest, hrest⟩
    refine ⟨rest, hrest, ?_⟩
    have hle := countLe_update_move o d status n
    have hmem : Event.move { instanceId := d.id,
                             destinationFolderId := d.getStr "folder_id" } ∈
        runTr (resourceYandexComputeInstanceUpdate o d status) n := by
      rw [hrest]
      simp
    have hpos : 0 < (runTr (resourceYandexComputeInstanceUpdate o d status) n).countP
        isMoveEvent :=
      List.countP_pos_iff.mpr ⟨_, hmem, by simp [isMoveEvent]⟩
    unfold runTr at hpos ⊢
    omega

/-- Concrete resource data for the C4 witness: folder_id changed,
allow_recreate false, stopping allowed. -/
def dC4 : ResourceData :=
  { dC1 with
    hasChange := fun s => s = "folder_id"
    getStr := fun s => if s = "folder_id" then "folder-b" else "" }

theorem instanceUpdate_folder_move_witness :
    ∃ rest,
      runTr (resourceYandexComputeInstanceUpdate (fun _ => true) dC4
        InstanceStatus.running) 0 =
        Event.getInstance dC4.id ::
          ((if InstanceStatus.running ≠ InstanceStatus.stopped
            then [Event.stop dC4.id] else []) ++
           Event.move { instanceId := dC4.id,
                        destinationFolderId := dC4.getStr "folder_id" } ::
           Event.start dC4.id :: rest) ∧
      (runTr (resourceYandexComputeInstanceUpdate (fun _ => true) dC4
        InstanceStatus.running) 0).countP isMoveEvent = 1 :=
  (instanceUpdate_folder_move dC4 InstanceStatus.running rfl).2.2.2 rfl rfl
    (fun _ => true) 0 (fun _ => rfl)

/-! ## C3: update-mask exactness -/

/-- Membership in the placement-policy mask paths produced by
preparePlacementPolicyForUpdateRequest. -/
theorem mem_preparePaths (d : ResourceData) (s : String) :
    s ∈ (preparePlacementPolicyForUpdateRequest d).2 ↔
      ((s = "placement_policy.placement_group_id" ∧
        d.hasChange "placement_policy.0.placement_group_id" = true) ∨
       (s = "placement_policy.host_affinity_rules" ∧
        d.hasChange "placement_policy.0.host_affinity_rules" = true) ∨
       (s = "placement_policy.placement_group_partition" ∧
        d.hasChange "placement_policy.0.placement_group_partition" = true)) := by
  unfold preparePlacementPolicyForUpdateRequest
  by_cases h1 : d.hasChange "placement_policy.0.placement_group_id" = true <;>
    by_cases h2 : d.hasChange "placement_policy.0.host_affinity_rules" = true <;>
      by_cases h3 : d.hasChange "placement_policy.0.placement_group_partition" = true <;>
        simp [h1, h2, h3]

/-- The claimed update-mask discipline of one UpdateInstanceRequest:
each populated field has exactly its mask path and comes from a changed
property, single-property requests carry exactly one path, and the
combined stopped-instance request masks a field iff the corresponding
property changed. -/
def C3prop (d : ResourceData) (req : UpdateInstanceRequest) : Prop :=
  (req.labels.isSome ↔ "labels" ∈ req.updateMaskPaths) ∧
  ("labels" ∈ req.updateMaskPaths →
    d.hasChange "labels" = true ∧ req.labels = some d.labelsVal ∧
    req.updateMaskPaths = ["labels"]) ∧
  (req.metadata.isSome ↔ "metadata" ∈ req.updateMaskPaths) ∧
  ("metadata" ∈ req.updateMaskPaths →
    d.hasChange "metadata" = true ∧ req.metadata = some d.metadataVal ∧
    req.updateMaskPaths = ["metadata"]) ∧
  (req.metadataOptions.isSome ↔ "metadata_options" ∈ req.updateMaskPaths) ∧
  ("metadata_options" ∈ req.updateMaskPaths →
    d.hasChange "metadata_options" = true ∧
    req.metadataOptions = some d.metadataOptionsVal ∧
    req.updateMaskPaths = ["metadata_options"]) ∧
  (req.name.isSome ↔ "name" ∈ req.updateMaskPaths) ∧
  ("name" ∈ req.updateMaskPaths →
    d.hasChange "name" = true ∧ req.name = some (d.getStr "name") ∧
    req.updateMaskPaths = ["name"]) ∧
  (req.description.isSome ↔ "description" ∈ req.updateMaskPaths) ∧
  ("description" ∈ req.updateMaskPaths →
    d.hasChange "description" = true ∧ req.description = some (d.getStr "description") ∧
    req.updateMaskPaths = ["description"]) ∧
  (req.serviceAccountId.isSome ↔ "service_account_id" ∈ req.updateMaskPaths) ∧
  ("service_account_id" ∈ req.updateMaskPaths →
    d.hasChange "service_account_id" = true ∧
    req.serviceAccountId = some (d.getStr "service_account_id") ∧
    req.updateMaskPaths = ["service_account_id"]) ∧
  (req.maintenancePolicy.isSome ↔ "maintenance_policy" ∈ req.updateMaskPaths) ∧
  ("maintenance_policy" ∈ req.updateMaskPaths →
    d.hasChange "maintenance_policy" = true) ∧
  (req.maintenanceGracePeriod.isSome ↔
    "maintenance_grace_period" ∈ req.updateMaskPaths) ∧
  ("maintenance_grace_period" ∈ req.updateMaskPaths →
    d.hasChange "maintenance_grace_period" = true ∧
    req.maintenanceGracePeriod = some d.maintenanceGracePeriodVal) ∧
  (req.resourcesSpec.isSome ↔ "resources_spec" ∈ req.updateMaskPaths) ∧
  ("resources_spec" ∈ req.updateMaskPaths →
    d.hasChange "resources" = true ∧ req.resourcesSpec = some d.resourcesSpecVal) ∧
  (req.platformId.isSome ↔ "platform_id" ∈ req.updateMaskPaths) ∧
  ("platform_id" ∈ req.updateMaskPaths →
    d.hasChange "platform_id" = true ∧ req.platformId = some (d.getStr "platform_id")) ∧
  (req.networkSettings.isSome ↔ "network_settings" ∈ req.updateMaskPaths) ∧
  ("network_settings" ∈ req.updateMaskPaths →
    d.hasChange "network_acceleration_type" = true ∧
    req.networkSettings = some d.networkSettingsVal) ∧
  (req.schedulingPolicy.isSome ↔
    "scheduling_policy.preemptible" ∈ req.updateMaskPaths) ∧
  ("scheduling_policy.preemptible" ∈ req.updateMaskPaths →
    d.hasChange "scheduling_policy" = true ∧
    req.schedulingPolicy = some d.schedulingPolicyVal) ∧
  (req.placementPolicy.isSome →
    d.hasChange "placement_policy" = true ∧
    req.placementPolicy = some (preparePlacementPolicyForUpdateRequest d).1) ∧
  ("placement_policy.placement_group_id" ∈ req.updateMaskPaths ↔
    (req.placementPolicy.isSome ∧
     d.hasChange "placement_policy.0.placement_group_id" = true)) ∧
  ("placement_policy.host_affinity_rules" ∈ req.updateMaskPaths ↔
    (req.placementPolicy.isSome ∧
     d.hasChange "placement_policy.0.host_affinity_rules" = true)) ∧
  ("placement_policy.placement_group_partition" ∈ req.updateMaskPaths ↔
    (req.placementPolicy.isSome ∧
     d.hasChange "placement_policy.0.placement_group_partition" = true)) ∧
  ((req.resourcesSpec.isSome ∨ req.platformId.isSome ∨ req.networkSettings.isSome ∨
    req.schedulingPolicy.isSome ∨ req.placementPolicy.isSome) →
    (("resources_spec" ∈ req.updateMaskPaths ↔ d.hasChange "resources" = true) ∧
     ("platform_id" ∈ req.updateMaskPaths ↔ d.hasChange "platform_id" = true) ∧
     ("network_settings" ∈ req.updateMaskPaths ↔
       d.hasChange "network_acceleration_type" = true) ∧
     ("scheduling_policy.preemptible" ∈ req.updateMaskPaths ↔
       d.hasChange "scheduling_policy" = true) ∧
     (req.placementPolicy.isSome ↔ d.hasChange "placement_policy" = true)))

theorem c3_labelsReq (d : ResourceData) (hc : d.hasChange "labels" = true) :
    C3prop d (labelsReq d) := by
  simp [C3prop, labelsReq, hc]

theorem c3_metadataReq (d : ResourceData) (hc : d.hasChange "metadata" = true) :
    C3prop d (metadataReq d) := by
  simp [C3prop, metadataReq, hc]

theorem c3_metadataOptionsReq (d : ResourceData)
    (hc : d.hasChange "metadata_options" = true) : C3prop d (metadataOptionsReq d) := by
  simp [C3prop, metadataOptionsReq, hc]

theorem c3_nameReq (d : ResourceData) (hc : d.hasChange "name" = true) :
    C3prop d (nameReq d) := by
  simp [C3prop, nameReq, hc]

theorem c3_descriptionReq (d : ResourceData) (hc : d.hasChange "description" = true) :
    C3prop d (descriptionReq d) := by
  simp [C3prop, descriptionReq, hc]

theorem c3_serviceAccountReq (d : ResourceData)
    (hc : d.hasChange "service_account_id" = true) : C3prop d (serviceAccountReq d) := by
  simp [C3prop, serviceAccountReq, hc]

theorem c3_maintenanceReq (d : ResourceData) (mp : MaintenancePolicy) :
    C3prop d (maintenanceReq d mp) := by
  by_cases h1 : d.hasChange "maintenance_policy" = true <;>
    by_cases h2 : d.hasChange "maintenance_grace_period" = true <;>
      simp [C3prop, maintenanceReq, h1, h2]

theorem c3_combinedReq (d : ResourceData) : C3prop d (combinedReq d) := by
  by_cases h1 : d.hasChange "resources" = true <;>
    by_cases h2 : d.hasChange "platform_id" = true <;>
      by_cases h3 : d.hasChange "network_acceleration_type" = true <;>
        by_cases h4 : d.hasChange "scheduling_policy" = true <;>
          by_cases h5 : d.hasChange "placement_policy" = true <;>
            simp [C3prop, combinedReq, mem_preparePaths, h1, h2, h3, h4, h5]

/-- C3: every UpdateInstanceRequest issued by the update flow obeys the
mask discipline: its UpdateMask paths are exactly the fields detected as
changed for that request (single-property requests carry exactly the one
path; the combined stopped-instance request carries a path iff the
property changed), and fields outside the mask are not populated from
unchanged properties. -/
theorem instanceUpdate_mask_exact (d : ResourceData) (status : InstanceStatus)
    (o : Oracle) (n : Nat) :
    ∀ req : UpdateInstanceRequest,
      Event.update req ∈ runTr (resourceYandexComputeInstanceUpdate o d status) n →
      C3prop d req := by
  have hall : TrAll (fun e => ∀ req, e = Event.update req → C3prop d req)
      (resourceYandexComputeInstanceUpdate o d status) := by
    refine trAll_update o d status _ (fun req h => by simp at h) ?_ ?_
    · refine trAll_preUpdateBlocks o d status _
        (fun req h => by simp at h) (fun req h => by simp at h)
        (fun req h => by simp at h) (fun req h => by simp at h)
        (fun req h => by simp at h)
        (fun hc req h => by
          injection h with h2
          rw [← h2]
          exact c3_labelsReq d hc)
        (fun hc req h => by
          injection h with h2
          rw [← h2]
          exact c3_metadataReq d hc)
        (fun hc req h => by
          injection h with h2
          rw [← h2]
          exact c3_metadataOptionsReq d hc)
        (fun hc req h => by
          injection h with h2
          rw [← h2]
          exact c3_nameReq d hc)
        (fun hc req h => by
          injection h with h2
          rw [← h2]
          exact c3_descriptionReq d hc)
        (fun hc req h => by
          injection h with h2
          rw [← h2]
          exact c3_serviceAccountReq d hc)
        (fun mp req h => by
          injection h with h2
          rw [← h2]
          exact c3_maintenanceReq d mp) ?_
        (fun r req h => by simp at h) (fun r req h => by simp at h)
        (fun r req h => by simp at h) (fun r req h => by simp at h)
      intro _
      exact ⟨fun r req h => by simp at h, fun r req h => by simp at h,
        fun r req h => by simp at h⟩
    · refine trAll_stoppedBlock o d _ (fun req h => by simp at h)
        (fun req h => by simp at h)
        (fun _ req h => by
          injection h with h2
          rw [← h2]
          exact c3_combinedReq d) ?_
      intro _
      exact ⟨fun r req h => by simp at h, fun r req h => by simp at h,
        fun r req h => by simp at h, fun r req h => by simp at h,
        fun r req h => by simp at h⟩
  exact fun req hreq => hall n (Event.update req) hreq req rfl

/-- Concrete resource data for the C3 witness: labels changed. -/
def dC3 : ResourceData :=
  { dC1 with hasChange := fun s => s = "labels", labelsVal := [("env", "prod")] }

theorem instanceUpdate_mask_exact_witness : C3prop dC3 (labelsReq dC3) :=
  instanceUpdate_mask_exact dC3 InstanceStatus.running (fun _ => true) 0
    (labelsReq dC3) (by decide)
